import Mathlib

/-!
# Session TTL timers of the Consul server (`consul/session_ttl.go`)

A shallow embedding of the leader-local session timer registry:
`initializeSessionTimers`, `resetSessionTimer` (with the expiry callback it
installs), `clearSessionTimer` and `clearAllSessionTimers`, followed by the
properties established about them.

Go pointers to `time.Timer` are indices into a heap of timer objects kept in
the server state, so that a timer which is no longer referenced by the
registry map is still visible.  The mutex `sessionTimersLock` is not part of
this sequential embedding.
-/

namespace Consul

/-! ## Data model -/

/-- The fields of `structs.Session` that `session_ttl.go` reads. -/
structure Session where
  ID : String
  TTL : String
deriving DecidableEq, Repr

/-- The operation of a `structs.SessionRequest`. -/
inductive SessionOp where
  | SessionCreate
  | SessionDestroy
deriving DecidableEq, Repr

/-- The request built by the expiry callback: `Datacenter`, `Op` and
`Session.ID`. -/
structure SessionRequest where
  Datacenter : String
  Op : SessionOp
  SessionID : String
deriving DecidableEq, Repr

/-- The errors returned by the functions of `session_ttl.go`.
`notFound id` is `fmt.Errorf("Could not find session for '%s'\n", id)`,
`invalidTTL ttl err` is `fmt.Errorf("Invalid Session TTL '%s': %v", ttl, err)`,
`store err` is an error of the state store handed back unchanged. -/
inductive Error where
  | notFound (id : String)
  | invalidTTL (ttl : String) (err : String)
  | store (err : String)
deriving DecidableEq, Repr

/-- Modelled from the spec: a `time.Timer` of the Go runtime created by
`time.AfterFunc`. `sessionID` is the `session.ID` captured by the callback
closure, `d` the duration the timer was last armed with, `armedAt` the clock
value at that moment, and `active` tells whether the timer is armed (neither
stopped nor fired). -/
structure Timer where
  sessionID : String
  d : Int
  armedAt : Int
  active : Bool
deriving DecidableEq, Repr

/-- The instant at which an armed timer is due. -/
def Timer.deadline (t : Timer) : Int := t.armedAt + t.d

/-- Modelled from the spec: the Session State Store behind `s.fsm.State()`,
whose code is outside `session_ttl.go`. It holds the persisted sessions;
`getErr` and `listErr`, when set, are the errors with which its queries
fail. -/
structure StateStore where
  sessions : List Session
  getErr : Option String
  listErr : Option String
deriving DecidableEq, Repr

/-- Modelled from the spec: `state.SessionGet(id)`, the session stored under
`id` (or nil), unless the query fails. -/
def StateStore.SessionGet (st : StateStore) (id : String) : Except String (Option Session) :=
  match st.getErr with
  | some e => .error e
  | none => .ok (st.sessions.find? (fun x => x.ID == id))

/-- Modelled from the spec: `state.SessionListTTL()`, all sessions with a
non-empty TTL, unless the query fails. -/
def StateStore.SessionListTTL (st : StateStore) : Except String (List Session) :=
  match st.listErr with
  | some e => .error e
  | none => .ok (st.sessions.filter (fun x => x.TTL != ""))

/-- Modelled from the spec: the state machine applying a `SessionDestroy`
request removes the session with that ID; destroying an absent session changes
nothing. -/
def StateStore.SessionDestroy (st : StateStore) (id : String) : StateStore :=
  { st with sessions := st.sessions.filter (fun x => x.ID != id) }

/-- The Go map `map[string]*time.Timer`: keys with the heap index of their
timer. The operations below keep keys unique. -/
abbrev TimerMap := List (String × Nat)

/-- Reading `m[id]`: the timer pointer stored under `id`, `none` for nil. -/
def TimerMap.get : TimerMap → String → Option Nat
  | [], _ => none
  | (k, v) :: rest, id => if k = id then some v else TimerMap.get rest id

/-- The statement `delete(m, id)`. -/
def TimerMap.delete (m : TimerMap) (id : String) : TimerMap :=
  m.filter (fun e => e.1 != id)

/-- The assignment `m[id] = t`. -/
def TimerMap.set (m : TimerMap) (id : String) (t : Nat) : TimerMap :=
  (id, t) :: TimerMap.delete m id

/-- The keys of the map. -/
def TimerMap.keys (m : TimerMap) : List String := m.map Prod.fst

/-- The part of `Server` that `session_ttl.go` uses. `sessionTimers` is the
registry (`none` is the nil map), `timers` the heap of timer objects, `now` the
runtime clock in nanoseconds, `state` the store behind `s.fsm.State()`,
`Datacenter` is `s.config.Datacenter`, `applied` lists the requests handed to
`raftApply` so far and `logger` the lines written to `s.logger`. -/
structure Server where
  sessionTimers : Option TimerMap
  timers : List Timer
  now : Int
  state : StateStore
  Datacenter : String
  applied : List SessionRequest
  logger : List String
deriving DecidableEq, Repr

/-- How a call ends: it returns (with the server state it leaves and its
`error` result, `none` for nil), or the goroutine panics. -/
inductive Result where
  | ret (s : Server) (err : Option Error)
  | panic (msg : String)
deriving DecidableEq, Repr

/-- Reading `s.sessionTimers[id]`; reading a nil map yields nil. -/
def Server.timerOf (s : Server) (id : String) : Option Nat :=
  match s.sessionTimers with
  | none => none
  | some m => m.get id

/-- The keys of the registry; a nil map has none. -/
def Server.timerKeys (s : Server) : List String :=
  match s.sessionTimers with
  | none => []
  | some m => m.keys

/-- Whether the timer at heap index `t` is armed. -/
def Server.timerActive (s : Server) (t : Nat) : Bool :=
  match s.timers[t]? with
  | some x => x.active
  | none => false

/-! ## Runtime and collaborators -/

/-- Two's complement wrap-around of a 64-bit signed integer. -/
def wrapInt64 (x : Int) : Int := (x + 2 ^ 63) % 2 ^ 64 - 2 ^ 63

/-- Modelled from the spec: the constant `structs.SessionTTLMultiplier`, whose
declaration is outside `session_ttl.go`; its value is 2. -/
def SessionTTLMultiplier : Int := 2

/-- The product `ttl * structs.SessionTTLMultiplier` of type `time.Duration`
(an `int64`). -/
def effectiveTTL (ttl : Int) : Int := wrapInt64 (ttl * SessionTTLMultiplier)

/-- Modelled from the spec: `t.Stop()` disarms the timer at index `t`. -/
def stopTimer (timers : List Timer) (t : Nat) : List Timer :=
  timers.modify (fun x => { x with active := false }) t

/-- Modelled from the spec: `t.Reset(d)` arms the timer at index `t` for `d`
from the current instant. -/
def resetTimer (timers : List Timer) (t : Nat) (now d : Int) : List Timer :=
  timers.modify (fun x => { x with d := d, armedAt := now, active := true }) t

/-- Modelled from the spec: `time.AfterFunc(d, f)` allocates a new armed timer
whose callback destroys `sessionID`; its pointer is the next heap index. -/
def afterFunc (timers : List Timer) (now d : Int) (sessionID : String) : Nat × List Timer :=
  (timers.length, timers ++ [{ sessionID := sessionID, d := d, armedAt := now, active := true }])

/-- Modelled from the spec: `s.raftApply(structs.SessionRequestType, args)`.
The request is recorded; `applyErr` is the error of the submission, and when
there is none the state machine has applied the request. -/
def raftApply (s : Server) (args : SessionRequest) (applyErr : Option String) : Server :=
  let s1 := { s with applied := s.applied ++ [args] }
  match applyErr with
  | some _ => s1
  | none =>
    match args.Op with
    | .SessionDestroy => { s1 with state := s1.state.SessionDestroy args.SessionID }
    | .SessionCreate => s1

/-! ## The functions of `session_ttl.go`

`parseDuration` stands for `time.ParseDuration` of the Go standard library. -/

/-- The function `resetSessionTimer(id, session)`; `session = none` is the nil
pointer. -/
def resetSessionTimer (parseDuration : String → Except String Int) (s : Server)
    (id : String) (session : Option Session) : Result :=
  let found : Option Session :=
    match session with
    | some x => some x
    | none =>
      match s.state.SessionGet id with
      | .error _ => none
      | .ok r => r
  match found with
  | none => .ret s (some (.notFound id))
  | some session =>
    if session.TTL ≠ "" then
      match parseDuration session.TTL with
      | .error err => .ret s (some (.invalidTTL session.TTL err))
      | .ok ttl =>
        match s.sessionTimers with
        | none =>
          .panic "Invalid call to resetSessionTimer before creation of session timers in leaderLoop"
        | some m =>
          match m.get id with
          | some t =>
            .ret { s with timers := resetTimer s.timers t s.now (effectiveTTL ttl) } none
          | none =>
            let r := afterFunc s.timers s.now (effectiveTTL ttl) session.ID
            .ret { s with timers := r.2, sessionTimers := some (m.set session.ID r.1) } none
    else .ret s none

/-- The loop `for _, session := range sessions` of `initializeSessionTimers`,
which returns at the first error. -/
def resetSessionTimers (parseDuration : String → Except String Int) :
    Server → List Session → Result
  | s, [] => .ret s none
  | s, session :: rest =>
    match resetSessionTimer parseDuration s session.ID (some session) with
    | .ret s1 none => resetSessionTimers parseDuration s1 rest
    | .ret s1 (some e) => .ret s1 (some e)
    | .panic msg => .panic msg

/-- The function `initializeSessionTimers()`. -/
def initializeSessionTimers (parseDuration : String → Except String Int) (s : Server) : Result :=
  let s1 := { s with sessionTimers := some [] }
  match s1.state.SessionListTTL with
  | .error err => .ret s1 (some (.store err))
  | .ok sessions => resetSessionTimers parseDuration s1 sessions

/-- The function `clearSessionTimer(id)`. -/
def clearSessionTimer (s : Server) (id : String) : Result :=
  match s.sessionTimers with
  | none => .ret s none
  | some m =>
    match m.get id with
    | some t => .ret { s with timers := stopTimer s.timers t, sessionTimers := some (m.delete id) } none
    | none => .ret s none

/-- One iteration of the loop of `clearAllSessionTimers`: `t.Stop()` and
`delete(s.sessionTimers, id)`. -/
def clearEntry (s : Server) (e : String × Nat) : Server :=
  { s with timers := stopTimer s.timers e.2,
           sessionTimers := s.sessionTimers.map (fun m => m.delete e.1) }

/-- The function `clearAllSessionTimers()`: the loop visits every entry the
map holds; ranging over a nil map visits nothing. -/
def clearAllSessionTimers (s : Server) : Result :=
  match s.sessionTimers with
  | none => .ret s none
  | some m => .ret (m.foldl clearEntry s) none

/-- The closure passed to `time.AfterFunc` in `resetSessionTimer`, for the
captured `session.ID`. Calling `Stop` through the nil pointer that a missing
entry yields panics. -/
def sessionTimerExpired (s : Server) (sessionID : String) (applyErr : Option String) : Result :=
  match s.timerOf sessionID with
  | none => .panic "invalid memory address or nil pointer dereference"
  | some t =>
    let s1 := { s with timers := stopTimer s.timers t }
    let args : SessionRequest :=
      { Datacenter := s1.Datacenter, Op := .SessionDestroy, SessionID := sessionID }
    let s2 := raftApply s1 args applyErr
    match applyErr with
    | some err => .ret { s2 with logger := s2.logger ++ ["[ERR] consul.session: Apply failed: " ++ err] } none
    | none => .ret s2 none

/-- Modelled from the spec: the runtime fires the armed timer at heap index
`t` once it is due: the timer is no longer armed and its callback runs.
`none` when the timer cannot fire. -/
def fireTimer (s : Server) (t : Nat) (applyErr : Option String) : Option Result :=
  match s.timers[t]? with
  | none => none
  | some x =>
    if x.active ∧ x.deadline ≤ s.now then
      some (sessionTimerExpired { s with timers := stopTimer s.timers t } x.sessionID applyErr)
    else none

/-- Modelled from the spec: the clock advances by `dt` nanoseconds. -/
def sleep (s : Server) (dt : Nat) : Server := { s with now := s.now + dt }

/-! ## Executions -/

/-- The state in which the server continues after a call; `none` after a
panic. -/
def Result.server : Result → Option Server
  | .ret s _ => some s
  | .panic _ => none

/-- The operations on the timer registry and the events of the runtime: a
timer firing (with the outcome of the submission its callback makes) and time
passing. -/
inductive Action where
  | initializeSessionTimers
  | resetSessionTimer (id : String) (session : Option Session)
  | clearSessionTimer (id : String)
  | clearAllSessionTimers
  | expire (t : Nat) (applyErr : Option String)
  | sleep (dt : Nat)
deriving DecidableEq, Repr

/-- One step of the server; `none` when the step panics or the timer cannot
fire. -/
def step (parseDuration : String → Except String Int) (s : Server) : Action → Option Server
  | .initializeSessionTimers => (initializeSessionTimers parseDuration s).server
  | .resetSessionTimer id session => (resetSessionTimer parseDuration s id session).server
  | .clearSessionTimer id => (clearSessionTimer s id).server
  | .clearAllSessionTimers => (clearAllSessionTimers s).server
  | .expire t applyErr => (fireTimer s t applyErr).bind Result.server
  | .sleep dt => some (sleep s dt)

/-- A sequence of steps. -/
def run (parseDuration : String → Except String Int) : Server → List Action → Option Server
  | s, [] => some s
  | s, a :: rest => (step parseDuration s a).bind (fun s1 => run parseDuration s1 rest)

/-- Whether an action can arm a timer for session `id`: `resetSessionTimer`
for a session with that ID (supplied, or looked up under `id`), and
`initializeSessionTimers`, which calls it for every listed session. -/
def Action.armsFor (a : Action) (id : String) : Bool :=
  match a with
  | .initializeSessionTimers => true
  | .resetSessionTimer _ (some x) => x.ID == id
  | .resetSessionTimer id1 none => id1 == id
  | _ => false

/-- The armed timers whose callback destroys session `id`. -/
def liveTimers (s : Server) (id : String) : List Timer :=
  s.timers.filter (fun x => x.active && x.sessionID == id)

/-- The IDs of the stored sessions with a non-empty TTL. -/
def ttlSessionIDs (st : StateStore) : List String :=
  (st.sessions.filter (fun x => x.TTL != "")).map Session.ID

/-! ## Lock discipline

The calls each function makes on `sessionTimersLock`, the accesses it makes to
the timer map and its `raftApply` call, in program order. -/

/-- One such call or access. `mapReplace` is the assignment
`s.sessionTimers = make(...)`, `mapRead id` a read of `s.sessionTimers[id]`
(or of the entry a `range` yields), `mapInsert id` the assignment
`s.sessionTimers[id] = ...`, `mapDelete id` is `delete(s.sessionTimers, id)`. -/
inductive Access where
  | lock
  | unlock
  | mapReplace
  | mapRead (id : String)
  | mapInsert (id : String)
  | mapDelete (id : String)
  | raftApply
deriving DecidableEq, Repr

/-- The accesses of `resetSessionTimer(id, session)`: none when it returns
before line 46; otherwise `Lock`, the read of `s.sessionTimers[id]`, the
insertion under `session.ID` when that read yields nil, and the deferred
`Unlock`. When the map is nil it panics right after `Lock`. -/
def resetSessionTimerAccesses (parseDuration : String → Except String Int) (s : Server)
    (id : String) (session : Option Session) : List Access :=
  let found : Option Session :=
    match session with
    | some x => some x
    | none =>
      match s.state.SessionGet id with
      | .error _ => none
      | .ok r => r
  match found with
  | none => []
  | some session =>
    if session.TTL ≠ "" then
      match parseDuration session.TTL with
      | .error _ => []
      | .ok _ =>
        match s.sessionTimers with
        | none => [.lock]
        | some m =>
          match m.get id with
          | some _ => [.lock, .mapRead id, .unlock]
          | none => [.lock, .mapRead id, .mapInsert session.ID, .unlock]
    else []

/-- The accesses of the loop of `initializeSessionTimers`. -/
def resetSessionTimersAccesses (parseDuration : String → Except String Int) :
    Server → List Session → List Access
  | _, [] => []
  | s, session :: rest =>
    resetSessionTimerAccesses parseDuration s session.ID (some session) ++
      match resetSessionTimer parseDuration s session.ID (some session) with
      | .ret s1 none => resetSessionTimersAccesses parseDuration s1 rest
      | _ => []

/-- The accesses of `initializeSessionTimers()`. -/
def initializeSessionTimersAccesses (parseDuration : String → Except String Int)
    (s : Server) : List Access :=
  let s1 := { s with sessionTimers := some [] }
  [.lock, .mapReplace, .unlock] ++
    match s1.state.SessionListTTL with
    | .error _ => []
    | .ok sessions => resetSessionTimersAccesses parseDuration s1 sessions

/-- The accesses of `clearSessionTimer(id)`. -/
def clearSessionTimerAccesses (s : Server) (id : String) : List Access :=
  match s.timerOf id with
  | some _ => [.lock, .mapRead id, .mapRead id, .mapDelete id, .unlock]
  | none => [.lock, .mapRead id, .unlock]

/-- The accesses of `clearAllSessionTimers()`. -/
def clearAllSessionTimersAccesses (s : Server) : List Access :=
  match s.sessionTimers with
  | none => [.lock, .unlock]
  | some m => [.lock] ++ m.flatMap (fun e => [.mapRead e.1, .mapDelete e.1]) ++ [.unlock]

/-- The accesses of the expiry callback (lines 57 to 68): the read of
`s.sessionTimers[session.ID]` and, unless `Stop` panics on a nil timer, the
call of `raftApply`. -/
def sessionTimerExpiredAccesses (s : Server) (sessionID : String) : List Access :=
  match s.timerOf sessionID with
  | none => [.mapRead sessionID]
  | some _ => [.mapRead sessionID, .raftApply]

/-- Whether a sequence of accesses, started with the lock held or not,
touches the map only while the lock is held and calls `raftApply` only while
it is not. -/
def lockDiscipline : Bool → List Access → Bool
  | _, [] => true
  | _, .lock :: rest => lockDiscipline true rest
  | _, .unlock :: rest => lockDiscipline false rest
  | held, .raftApply :: rest => !held && lockDiscipline held rest
  | held, _ :: rest => held && lockDiscipline held rest

/-! ## Concrete inputs -/

/-- The value of `time.ParseDuration` on the TTL strings used at concrete
inputs; every other string is rejected. -/
def parseDurationTable (x : String) : Except String Int :=
  if x = "30s" then .ok 30000000000
  else if x = "4611686018427387904ns" then .ok 4611686018427387904
  else .error "time: invalid duration"

/-- A store with one TTL-bearing session `a` and one session `b` without
TTL. -/
def sampleStore : StateStore :=
  { sessions := [⟨"a", "30s"⟩, ⟨"b", ""⟩], getErr := none, listErr := none }

/-- A server that has not created its timer map yet. -/
def freshServer : Server :=
  { sessionTimers := none, timers := [], now := 0, state := sampleStore, Datacenter := "dc1", applied := [], logger := [] }

/-- A server with an initialized, empty registry. -/
def leaderServer : Server :=
  { sessionTimers := some [], timers := [], now := 0, state := sampleStore, Datacenter := "dc1", applied := [], logger := [] }

/-- A server 45 seconds after the timer of session `a` was armed for 60
seconds. -/
def renewServer : Server :=
  { sessionTimers := some [("a", 0)], timers := [⟨"a", 60000000000, 0, true⟩], now := 45000000000, state := sampleStore, Datacenter := "dc1", applied := [], logger := [] }

/-- The server of `renewServer` at T=60s, when the timer of session `a` is
due. -/
def dueServer : Server :=
  { sessionTimers := some [("a", 0)], timers := [⟨"a", 60000000000, 0, true⟩], now := 60000000000, state := sampleStore, Datacenter := "dc1", applied := [], logger := [] }

/-- A store whose `SessionListTTL` query fails. -/
def closedStore : StateStore :=
  { sessions := [⟨"a", "30s"⟩, ⟨"b", ""⟩], getErr := none, listErr := some "closed" }

/-- A store holding session `a` with TTL `30s` and session `c` whose TTL `abc`
is not a duration. -/
def invalidTTLStore : StateStore :=
  { sessions := [⟨"a", "30s"⟩, ⟨"c", "abc"⟩], getErr := none, listErr := none }

/-- The server after `initializeSessionTimers` ran twice on `sampleStore`: the
registry holds timer 1 for session `a`, timer 0 is no longer referenced. -/
def orphanServer : Server :=
  { sessionTimers := some [("a", 1)], timers := [⟨"a", 60000000000, 0, true⟩, ⟨"a", 60000000000, 0, true⟩], now := 0, state := sampleStore, Datacenter := "dc1", applied := [], logger := [] }

/-! ## Auxiliary facts -/

theorem wrapInt64_of_range (x : Int) (h : -2 ^ 63 ≤ x ∧ x < 2 ^ 63) : wrapInt64 x = x := by
  unfold wrapInt64
  norm_num at h ⊢
  omega

theorem effectiveTTL_of_range (d : Int) (h : -2 ^ 63 ≤ 2 * d ∧ 2 * d < 2 ^ 63) :
    effectiveTTL d = 2 * d := by
  unfold effectiveTTL SessionTTLMultiplier
  rw [mul_comm]
  exact wrapInt64_of_range _ h

theorem TimerMap.get_delete_self (m : TimerMap) (id : String) : (m.delete id).get id = none := by
  induction m with
  | nil => rfl
  | cons e rest ih =>
    obtain ⟨k, v⟩ := e
    by_cases hk : k = id
    · simpa [TimerMap.delete, List.filter_cons, hk] using ih
    · simpa [TimerMap.delete, List.filter_cons, hk, TimerMap.get] using ih

theorem TimerMap.get_delete_of_ne (m : TimerMap) (id k : String) (h : k ≠ id) :
    (m.delete id).get k = m.get k := by
  induction m with
  | nil => rfl
  | cons e rest ih =>
    obtain ⟨k1, v⟩ := e
    have ih1 : TimerMap.get (List.filter (fun e => e.1 != id) rest) k = TimerMap.get rest k := ih
    by_cases hk : k1 = id
    · subst hk
      have hk1 : ¬ k1 = k := fun h1 => h h1.symm
      simp [TimerMap.delete, List.filter_cons, TimerMap.get, hk1, ih1]
    · by_cases hk2 : k1 = k
      · subst hk2
        simp [TimerMap.delete, List.filter_cons, hk, TimerMap.get]
      · simp [TimerMap.delete, List.filter_cons, hk, TimerMap.get, hk2, ih1]

theorem TimerMap.delete_of_get_none (m : TimerMap) (id : String) (h : m.get id = none) :
    m.delete id = m := by
  induction m with
  | nil => rfl
  | cons e rest ih =>
    obtain ⟨k, v⟩ := e
    by_cases hk : k = id
    · simp [TimerMap.get, hk] at h
    · simp only [TimerMap.get, hk, if_false] at h
      have := ih h
      simp only [TimerMap.delete] at this ⊢
      simp [List.filter_cons, hk, this]

theorem TimerMap.get_set_self (m : TimerMap) (id : String) (t : Nat) :
    (m.set id t).get id = some t := by
  simp [TimerMap.set, TimerMap.get]

theorem TimerMap.get_set_of_ne (m : TimerMap) (id k : String) (t : Nat) (h : k ≠ id) :
    (m.set id t).get k = m.get k := by
  have h1 : id ≠ k := fun h1 => h h1.symm
  simp [TimerMap.set, TimerMap.get, h1, TimerMap.get_delete_of_ne m id k h]

theorem TimerMap.mem_keys_iff (m : TimerMap) (k : String) :
    k ∈ m.keys ↔ ∃ t, m.get k = some t := by
  induction m with
  | nil => simp [TimerMap.keys, TimerMap.get]
  | cons e rest ih =>
    obtain ⟨k1, v⟩ := e
    by_cases hk : k1 = k
    · simp [TimerMap.keys, TimerMap.get, hk]
    · have hk2 : k ≠ k1 := fun h1 => hk h1.symm
      simp only [TimerMap.keys, List.map_cons, List.mem_cons, TimerMap.get, hk, if_false, hk2,
        false_or]
      exact ih

theorem TimerMap.get_eq_none_iff (m : TimerMap) (k : String) :
    m.get k = none ↔ k ∉ m.keys := by
  rw [TimerMap.mem_keys_iff]
  cases m.get k <;> simp

theorem resetSessionTimer_new (parseDuration : String → Except String Int)
    (s : Server) (m : TimerMap) (session : Session) (d : Int)
    (hinit : s.sessionTimers = some m) (hfresh : m.get session.ID = none)
    (hne : session.TTL ≠ "") (hparse : parseDuration session.TTL = .ok d) :
    resetSessionTimer parseDuration s session.ID (some session) =
      .ret { s with timers := s.timers ++ [⟨session.ID, effectiveTTL d, s.now, true⟩],
                    sessionTimers := some ((session.ID, s.timers.length) :: m) } none := by
  simp [resetSessionTimer, hne, hparse, hinit, hfresh, afterFunc, TimerMap.set,
    TimerMap.delete_of_get_none m session.ID hfresh]

theorem resetSessionTimers_fresh (parseDuration : String → Except String Int) :
    ∀ (sessions : List Session) (s : Server) (m : TimerMap),
      s.sessionTimers = some m →
      (∀ x ∈ sessions, x.TTL ≠ "" ∧ ∃ d, parseDuration x.TTL = .ok d) →
      (sessions.map Session.ID).Nodup →
      (∀ x ∈ sessions, x.ID ∉ m.keys) →
      ∃ s1 m1, resetSessionTimers parseDuration s sessions = .ret s1 none ∧
        s1.sessionTimers = some m1 ∧
        m1.keys = (sessions.map Session.ID).reverse ++ m.keys ∧
        s1.state = s.state := by
  intro sessions
  induction sessions with
  | nil =>
    intro s m hinit _ _ _
    exact ⟨s, m, rfl, hinit, by simp, rfl⟩
  | cons session rest ih =>
    intro s m hinit httl hnodup hfresh
    obtain ⟨hne, d, hparse⟩ := httl session (List.mem_cons_self _ _)
    have hget : m.get session.ID = none :=
      (TimerMap.get_eq_none_iff m session.ID).2 (hfresh session (List.mem_cons_self _ _))
    have hstep := resetSessionTimer_new parseDuration s m session d hinit hget hne hparse
    rw [List.map_cons, List.nodup_cons] at hnodup
    obtain ⟨s1, m1, hrun, hmap, hkeys, hstate⟩ :=
      ih { s with timers := s.timers ++ [⟨session.ID, effectiveTTL d, s.now, true⟩],
                  sessionTimers := some ((session.ID, s.timers.length) :: m) }
        ((session.ID, s.timers.length) :: m) rfl
        (fun x hx => httl x (List.mem_cons_of_mem _ hx)) hnodup.2
        (by
          intro x hx hmem
          simp only [TimerMap.keys, List.map_cons, List.mem_cons] at hmem
          rcases hmem with hmem | hmem
          · exact hnodup.1 (hmem ▸ List.mem_map_of_mem Session.ID hx)
          · exact hfresh x (List.mem_cons_of_mem _ hx) hmem)
    refine ⟨s1, m1, ?_, hmap, ?_, hstate⟩
    · simp only [resetSessionTimers, hstep]
      exact hrun
    · rw [hkeys]
      simp [TimerMap.keys]

theorem timerActive_stopTimer_self (s : Server) (ts : List Timer) (t : Nat)
    (h : s.timers = stopTimer ts t) : s.timerActive t = false := by
  simp only [Server.timerActive, h, stopTimer, List.getElem?_modify_eq]
  cases ts[t]? <;> rfl

theorem getElem?_stopTimer_of_ne (ts : List Timer) (t u : Nat) (h : t ≠ u) :
    (stopTimer ts t)[u]? = ts[u]? := by
  simp [stopTimer, List.getElem?_modify_ne _ _ h]

theorem active_stopTimer_of_inactive (ts : List Timer) (t u : Nat)
    (h : (ts[u]?).map Timer.active ≠ some true) :
    ((stopTimer ts t)[u]?).map Timer.active ≠ some true := by
  by_cases htu : t = u
  · subst htu
    simp only [stopTimer, List.getElem?_modify_eq]
    cases ts[t]? <;> simp
  · rw [getElem?_stopTimer_of_ne ts t u htu]
    exact h

theorem foldl_clearEntry_timers (l : TimerMap) :
    ∀ s : Server, (l.foldl clearEntry s).timers = l.foldl (fun ts e => stopTimer ts e.2) s.timers := by
  induction l with
  | nil => intro s; rfl
  | cons e rest ih => intro s; simp only [List.foldl_cons]; rw [ih]; rfl

theorem foldl_clearEntry_sessionTimers (l : TimerMap) :
    ∀ s : Server, (l.foldl clearEntry s).sessionTimers =
      s.sessionTimers.map (fun m => l.foldl (fun m e => TimerMap.delete m e.1) m) := by
  induction l with
  | nil => intro s; simp
  | cons e rest ih =>
    intro s
    simp only [List.foldl_cons]
    rw [ih]
    cases h : s.sessionTimers <;> simp [clearEntry, h]

theorem foldl_clearEntry_rest (l : TimerMap) :
    ∀ s : Server, (l.foldl clearEntry s).now = s.now ∧ (l.foldl clearEntry s).state = s.state ∧
      (l.foldl clearEntry s).Datacenter = s.Datacenter ∧
      (l.foldl clearEntry s).applied = s.applied ∧ (l.foldl clearEntry s).logger = s.logger := by
  induction l with
  | nil => intro s; simp
  | cons e rest ih => intro s; simp only [List.foldl_cons]; exact ih (clearEntry s e)

theorem foldl_delete_eq_nil (l : TimerMap) :
    ∀ m : TimerMap, (∀ e ∈ m, e.1 ∈ l.keys) →
      l.foldl (fun m e => TimerMap.delete m e.1) m = [] := by
  induction l with
  | nil =>
    intro m h
    cases m with
    | nil => rfl
    | cons e rest => exact absurd (h e (List.mem_cons_self _ _)) (by simp [TimerMap.keys])
  | cons e rest ih =>
    intro m h
    simp only [List.foldl_cons]
    apply ih
    intro x hx
    simp only [TimerMap.delete, List.mem_filter, bne_iff_ne, ne_eq] at hx
    have := h x hx.1
    simp only [TimerMap.keys, List.map_cons, List.mem_cons] at this
    rcases this with h1 | h1
    · exact absurd h1 hx.2
    · exact h1

theorem foldl_stopTimer_inactive (l : TimerMap) :
    ∀ (ts : List Timer) (u : Nat),
      (u ∈ l.map Prod.snd ∨ (ts[u]?).map Timer.active ≠ some true) →
      ((l.foldl (fun ts e => stopTimer ts e.2) ts)[u]?).map Timer.active ≠ some true := by
  induction l with
  | nil =>
    intro ts u h
    rcases h with h | h
    · simp at h
    · exact h
  | cons e rest ih =>
    intro ts u h
    simp only [List.foldl_cons]
    apply ih
    by_cases hmem : u ∈ rest.map Prod.snd
    · exact Or.inl hmem
    · right
      rcases h with h | h
      · simp only [List.map_cons, List.mem_cons] at h
        rcases h with h | h
        · subst h
          simp only [stopTimer, List.getElem?_modify_eq]
          cases ts[e.2]? <;> simp
        · exact absurd h hmem
      · exact active_stopTimer_of_inactive ts e.2 u h

theorem timerActive_eq_false_iff (s : Server) (u : Nat) :
    s.timerActive u = false ↔ (s.timers[u]?).map Timer.active ≠ some true := by
  unfold Server.timerActive
  cases s.timers[u]? <;> simp

theorem TimerMap.mem_of_get (m : TimerMap) (id : String) (t : Nat) (h : m.get id = some t) :
    (id, t) ∈ m := by
  induction m with
  | nil => simp [TimerMap.get] at h
  | cons e rest ih =>
    obtain ⟨k, v⟩ := e
    by_cases hk : k = id
    · simp only [TimerMap.get, hk, if_true, Option.some.injEq] at h
      simp [hk, h]
    · simp only [TimerMap.get, hk, if_false] at h
      exact List.mem_cons_of_mem _ (ih h)

/-! ## Arming and re-arming (`resetSessionTimer`) -/

/-- C1: on an initialized registry with no entry for the session's ID, for a
session whose non-empty TTL parses to `d` with `2 * d` representable in 64
bits, `resetSessionTimer(session.ID, session)` returns nil and leaves an entry
under `session.ID` whose timer is armed for `d * SessionTTLMultiplier = 2 * d`. -/
theorem resetSessionTimer_arms_new_timer (parseDuration : String → Except String Int)
    (s : Server) (m : TimerMap) (session : Session) (d : Int)
    (hinit : s.sessionTimers = some m)
    (hfresh : m.get session.ID = none)
    (hne : session.TTL ≠ "")
    (hparse : parseDuration session.TTL = .ok d)
    (hrange : -2 ^ 63 ≤ 2 * d ∧ 2 * d < 2 ^ 63) :
    ∃ s1 t, resetSessionTimer parseDuration s session.ID (some session) = .ret s1 none ∧
      s1.timerOf session.ID = some t ∧
      s1.timers[t]? = some { sessionID := session.ID, d := 2 * d, armedAt := s.now, active := true } ∧
      s1.timerActive t = true ∧
      d * SessionTTLMultiplier = 2 * d := by
  refine ⟨{ s with timers := s.timers ++ [{ sessionID := session.ID, d := 2 * d, armedAt := s.now, active := true }],
                    sessionTimers := some (m.set session.ID s.timers.length) }, s.timers.length, ?_, ?_, ?_, ?_, ?_⟩
  · simp [resetSessionTimer, hne, hparse, hinit, hfresh, afterFunc, effectiveTTL_of_range d hrange]
  · simp [Server.timerOf, TimerMap.get_set_self]
  · simp
  · simp [Server.timerActive]
  · simp [SessionTTLMultiplier, mul_comm]

/-- Witness for C1: session `a` with TTL `30s` on an empty initialized
registry. -/
theorem resetSessionTimer_arms_new_timer_witness :
    ∃ s1 t, resetSessionTimer parseDurationTable leaderServer "a" (some ⟨"a", "30s"⟩) = .ret s1 none ∧
      s1.timerOf "a" = some t ∧
      s1.timers[t]? = some { sessionID := "a", d := 2 * 30000000000, armedAt := 0, active := true } ∧
      s1.timerActive t = true ∧
      (30000000000 : Int) * SessionTTLMultiplier = 2 * 30000000000 :=
  resetSessionTimer_arms_new_timer parseDurationTable leaderServer [] ⟨"a", "30s"⟩ 30000000000
    rfl rfl (by decide) rfl (by decide)

/-- C2, amended: when the registry already holds a timer for `id` and the
session's non-empty TTL parses to `d` with `2 * d` representable in 64 bits,
`resetSessionTimer(id, session)` returns nil, re-arms that same timer for
`2 * d` from the current instant, whatever it had left (its deadline becomes
`now + 2 * d`), allocates no timer and leaves the registry map as it was. -/
theorem resetSessionTimer_rearms_existing_timer (parseDuration : String → Except String Int)
    (s : Server) (m : TimerMap) (id : String) (t : Nat) (x : Timer) (session : Session) (d : Int)
    (hinit : s.sessionTimers = some m)
    (hget : m.get id = some t)
    (hx : s.timers[t]? = some x)
    (hne : session.TTL ≠ "")
    (hparse : parseDuration session.TTL = .ok d)
    (hrange : -2 ^ 63 ≤ 2 * d ∧ 2 * d < 2 ^ 63) :
    ∃ s1 y, resetSessionTimer parseDuration s id (some session) = .ret s1 none ∧
      s1.timers[t]? = some y ∧
      y = { x with d := 2 * d, armedAt := s.now, active := true } ∧
      y.deadline = s.now + 2 * d ∧
      s1.sessionTimers = s.sessionTimers ∧
      s1.timerKeys = s.timerKeys ∧
      s1.timers.length = s.timers.length := by
  refine ⟨{ s with timers := resetTimer s.timers t s.now (2 * d) },
    { x with d := 2 * d, armedAt := s.now, active := true }, ?_, ?_, rfl, ?_, rfl, rfl, ?_⟩
  · simp [resetSessionTimer, hne, hparse, hinit, hget, effectiveTTL_of_range d hrange]
  · simp [resetTimer, hx]
  · simp [Timer.deadline]
  · simp [resetTimer]

/-- Witness for C2: a 30s session, armed at T=0 for 60s and renewed at T=45s,
has its deadline at T=105s. -/
theorem resetSessionTimer_rearms_existing_timer_witness :
    ∃ s1 y, resetSessionTimer parseDurationTable renewServer "a" (some ⟨"a", "30s"⟩) = .ret s1 none ∧
      s1.timers[0]? = some y ∧
      y = { (⟨"a", 60000000000, 0, true⟩ : Timer) with
            d := 2 * 30000000000, armedAt := renewServer.now, active := true } ∧
      y.deadline = renewServer.now + 2 * 30000000000 ∧
      s1.sessionTimers = renewServer.sessionTimers ∧
      s1.timerKeys = renewServer.timerKeys ∧
      s1.timers.length = renewServer.timers.length :=
  resetSessionTimer_rearms_existing_timer parseDurationTable renewServer [("a", 0)] "a" 0
    ⟨"a", 60000000000, 0, true⟩ ⟨"a", "30s"⟩ 30000000000 rfl rfl rfl (by decide) rfl (by decide)

/-- Counterexample to C2 as stated: for the parseable TTL
`4611686018427387904ns` (`d = 2 ^ 62`) the registered timer is re-armed for
`-2 ^ 63` nanoseconds, not for `2 * d`, and its deadline is not `now + 2 * d`. -/
theorem resetSessionTimer_rearm_wraps_around :
    parseDurationTable "4611686018427387904ns" = .ok 4611686018427387904 ∧
    renewServer.timerOf "a" = some 0 ∧
    resetSessionTimer parseDurationTable renewServer "a" (some ⟨"a", "4611686018427387904ns"⟩) =
      .ret { renewServer with timers := [⟨"a", -9223372036854775808, 45000000000, true⟩] } none ∧
    (-9223372036854775808 : Int) ≠ 2 * 4611686018427387904 ∧
    (⟨"a", -9223372036854775808, 45000000000, true⟩ : Timer).deadline ≠
      renewServer.now + 2 * 4611686018427387904 :=
  ⟨rfl, rfl, by decide, by decide, by decide⟩

/-- C3: for every registry state (nil included), every id and every session
with an empty TTL, supplied or found in the store under `id`,
`resetSessionTimer` returns nil and leaves the server, its registry and its
timers exactly as they were. -/
theorem resetSessionTimer_empty_TTL_noop (parseDuration : String → Except String Int)
    (s : Server) (id : String) (session : Session) (httl : session.TTL = "") :
    resetSessionTimer parseDuration s id (some session) = .ret s none ∧
    (s.state.SessionGet id = .ok (some session) →
      resetSessionTimer parseDuration s id none = .ret s none) := by
  constructor
  · simp [resetSessionTimer, httl]
  · intro hget
    simp [resetSessionTimer, hget, httl]

/-- Witness for C3: session `b` has no TTL; the call is made on a server whose
timer map is nil, with the session supplied and with the session looked up. -/
theorem resetSessionTimer_empty_TTL_noop_witness :
    (⟨"b", ""⟩ : Session).TTL = "" ∧
    freshServer.state.SessionGet "b" = .ok (some ⟨"b", ""⟩) ∧
    resetSessionTimer parseDurationTable freshServer "b" (some ⟨"b", ""⟩) = .ret freshServer none ∧
    resetSessionTimer parseDurationTable freshServer "b" none = .ret freshServer none :=
  ⟨rfl, rfl,
    (resetSessionTimer_empty_TTL_noop parseDurationTable freshServer "b" ⟨"b", ""⟩ rfl).1,
    (resetSessionTimer_empty_TTL_noop parseDurationTable freshServer "b" ⟨"b", ""⟩ rfl).2 rfl⟩

/-! ## Leadership re-synchronization (`initializeSessionTimers`) -/

/-- C4: whatever the registry held before, when `SessionListTTL` succeeds and
returns sessions with distinct IDs and parseable non-empty TTLs,
`initializeSessionTimers` returns nil and leaves a registry with exactly one
entry per returned session: its keys are distinct, as many as the sessions
returned, they are exactly the returned IDs, and each of them is the ID of a
stored session with a non-empty TTL. -/
theorem initializeSessionTimers_resynchronizes (parseDuration : String → Except String Int)
    (s : Server) (sessions : List Session)
    (hlist : s.state.SessionListTTL = .ok sessions)
    (hdistinct : (sessions.map Session.ID).Nodup)
    (httl : ∀ x ∈ sessions, x.TTL ≠ "" ∧ ∃ d, parseDuration x.TTL = .ok d) :
    ∃ s1, initializeSessionTimers parseDuration s = .ret s1 none ∧
      s1.timerKeys.length = sessions.length ∧
      s1.timerKeys.Nodup ∧
      (∀ k, k ∈ s1.timerKeys ↔ k ∈ sessions.map Session.ID) ∧
      (∀ k ∈ s1.timerKeys, ∃ x ∈ s.state.sessions, x.ID = k ∧ x.TTL ≠ "") := by
  obtain ⟨s1, m1, hrun, hmap, hkeys, -⟩ :=
    resetSessionTimers_fresh parseDuration sessions { s with sessionTimers := some [] } []
      rfl httl hdistinct (by simp [TimerMap.keys])
  have hk : s1.timerKeys = (sessions.map Session.ID).reverse := by
    have hnil : TimerMap.keys [] = [] := rfl
    simp only [Server.timerKeys, hmap, hkeys, hnil, List.append_nil]
  refine ⟨s1, ?_, ?_, ?_, ?_, ?_⟩
  · have hl : ({ s with sessionTimers := some [] } : Server).state.SessionListTTL = .ok sessions := hlist
    simp only [initializeSessionTimers, hl]
    exact hrun
  · simp [hk]
  · rw [hk]
    exact List.nodup_reverse.2 hdistinct
  · intro k
    simp [hk]
  · intro k hmem
    rw [hk, List.mem_reverse, List.mem_map] at hmem
    obtain ⟨x, hx, rfl⟩ := hmem
    refine ⟨x, ?_, rfl, (httl x hx).1⟩
    unfold StateStore.SessionListTTL at hlist
    cases hErr : s.state.listErr with
    | some e => simp [hErr] at hlist
    | none =>
      simp only [hErr, Except.ok.injEq] at hlist
      rw [← hlist] at hx
      exact (List.mem_filter.1 hx).1

/-- Witness for C4: a registry that still holds a stale entry is
re-synchronized with a store holding session `a` (TTL `30s`) and session `b`
(no TTL). -/
theorem initializeSessionTimers_resynchronizes_witness :
    ∃ s1, initializeSessionTimers parseDurationTable
        { renewServer with sessionTimers := some [("stale", 0)] } = .ret s1 none ∧
      s1.timerKeys.length = [(⟨"a", "30s"⟩ : Session)].length ∧
      s1.timerKeys.Nodup ∧
      (∀ k, k ∈ s1.timerKeys ↔ k ∈ [(⟨"a", "30s"⟩ : Session)].map Session.ID) ∧
      (∀ k ∈ s1.timerKeys, ∃ x ∈ sampleStore.sessions, x.ID = k ∧ x.TTL ≠ "") :=
  initializeSessionTimers_resynchronizes parseDurationTable
    { renewServer with sessionTimers := some [("stale", 0)] } [⟨"a", "30s"⟩] rfl (by decide)
    (by
      intro x hx
      rw [List.mem_singleton] at hx
      subst hx
      exact ⟨by decide, 30000000000, rfl⟩)

/-! ## Registry and store after an expiry -/

/-- C5, the code at the failing input: after `initializeSessionTimers` on a
store holding session `a` with TTL `30s`, the timer of `a` fires 60 seconds
later and its destroy request is applied. The store no longer holds a session
with a TTL, yet the registry still has the key `a`. -/
theorem registry_keeps_entry_of_expired_session :
    (run parseDurationTable freshServer
        [.initializeSessionTimers, .sleep 60000000000, .expire 0 none]).map
      (fun s => (s.timerKeys, ttlSessionIDs s.state, s.applied)) =
    some (["a"], [], [⟨"dc1", .SessionDestroy, "a"⟩]) := by
  decide

/-- C6, the code at the failing input: `initializeSessionTimers` called twice
on a store holding session `a` with TTL `30s` leaves two armed timers for
`a`: the first map is dropped without stopping its timer. -/
theorem initializeSessionTimers_twice_leaves_two_live_timers :
    (run parseDurationTable freshServer
        [.initializeSessionTimers, .initializeSessionTimers]).map
      (fun s => (liveTimers s "a", s.timerKeys)) =
    some ([⟨"a", 60000000000, 0, true⟩, ⟨"a", 60000000000, 0, true⟩], ["a"]) := by
  decide

/-! ## Clearing (`clearSessionTimer`, `clearAllSessionTimers`) -/

/-- C7: for every registry state and id, `clearSessionTimer(id)` returns nil;
a timer held for `id` is stopped and its entry removed; with no entry for `id`
the server is unchanged; the entries of all other ids, and all other timers,
are as before. -/
theorem clearSessionTimer_stops_and_removes (s : Server) (id : String) :
    ∃ s1, clearSessionTimer s id = .ret s1 none ∧
      (∀ t, s.timerOf id = some t →
        s1.timerActive t = false ∧ s1.timerOf id = none ∧ id ∉ s1.timerKeys ∧
        s1.timers = stopTimer s.timers t) ∧
      (s.timerOf id = none → s1 = s) ∧
      (∀ k, k ≠ id → s1.timerOf k = s.timerOf k) ∧
      (∀ u, s.timerOf id ≠ some u → s1.timers[u]? = s.timers[u]?) := by
  cases hm : s.sessionTimers with
  | none =>
    refine ⟨s, by simp [clearSessionTimer, hm], ?_, fun _ => rfl, fun _ _ => rfl, fun _ _ => rfl⟩
    intro t ht
    simp [Server.timerOf, hm] at ht
  | some m =>
    cases hg : m.get id with
    | none =>
      refine ⟨s, by simp [clearSessionTimer, hm, hg], ?_, fun _ => rfl, fun _ _ => rfl, fun _ _ => rfl⟩
      intro t ht
      simp [Server.timerOf, hm, hg] at ht
    | some t =>
      refine ⟨{ s with timers := stopTimer s.timers t, sessionTimers := some (m.delete id) },
        by simp [clearSessionTimer, hm, hg], ?_, ?_, ?_, ?_⟩
      · intro t1 ht1
        have : t1 = t := by simpa [Server.timerOf, hm, hg] using ht1.symm
        subst this
        refine ⟨timerActive_stopTimer_self _ s.timers t1 rfl, ?_, ?_, rfl⟩
        · simp [Server.timerOf, TimerMap.get_delete_self]
        · simp only [Server.timerKeys]
          exact (TimerMap.get_eq_none_iff _ _).1 (TimerMap.get_delete_self m id)
      · intro hnone
        simp [Server.timerOf, hm, hg] at hnone
      · intro k hk
        simp [Server.timerOf, hm, TimerMap.get_delete_of_ne m id k hk]
      · intro u hu
        have hne : t ≠ u := by
          intro h
          apply hu
          simp [Server.timerOf, hm, hg, h]
        exact getElem?_stopTimer_of_ne s.timers t u hne

/-- C8: for every registry state, the nil map included,
`clearAllSessionTimers` returns nil, stops every timer the registry held and
leaves a registry without entries; nothing else of the server changes. -/
theorem clearAllSessionTimers_stops_and_removes_all (s : Server) :
    ∃ s1, clearAllSessionTimers s = .ret s1 none ∧
      s1.timerKeys = [] ∧
      (∀ id, s1.timerOf id = none) ∧
      (∀ id t, s.timerOf id = some t → s1.timerActive t = false) ∧
      (∀ m, s.sessionTimers = some m → ∀ e ∈ m, s1.timerActive e.2 = false) ∧
      (∀ u, s1.timerActive u = true → s.timerActive u = true) ∧
      s1.timers.length = s.timers.length ∧
      s1.state = s.state ∧ s1.applied = s.applied := by
  cases hm : s.sessionTimers with
  | none =>
    refine ⟨s, by simp [clearAllSessionTimers, hm], by simp [Server.timerKeys, hm],
      by simp [Server.timerOf, hm], ?_, ?_, fun _ h => h, rfl, rfl, rfl⟩
    · intro id t ht
      simp [Server.timerOf, hm] at ht
    · intro m h
      simp at h
  | some m =>
    have hmap : (m.foldl clearEntry s).sessionTimers = some [] := by
      rw [foldl_clearEntry_sessionTimers, hm, Option.map_some',
        foldl_delete_eq_nil m m (fun e he => List.mem_map_of_mem Prod.fst he)]
    have hstop : ∀ e ∈ m, (m.foldl clearEntry s).timerActive e.2 = false := by
      intro e he
      rw [timerActive_eq_false_iff, foldl_clearEntry_timers]
      exact foldl_stopTimer_inactive m s.timers e.2 (Or.inl (List.mem_map_of_mem Prod.snd he))
    refine ⟨m.foldl clearEntry s, by simp [clearAllSessionTimers, hm], ?_, ?_, ?_, ?_, ?_, ?_,
      (foldl_clearEntry_rest m s).2.1, (foldl_clearEntry_rest m s).2.2.2.1⟩
    · simp [Server.timerKeys, hmap, TimerMap.keys]
    · intro id
      simp [Server.timerOf, hmap, TimerMap.get]
    · intro id t ht
      simp only [Server.timerOf, hm] at ht
      exact hstop (id, t) (TimerMap.mem_of_get m id t ht)
    · intro m1 h e he
      simp only [Option.some.injEq] at h
      subst h
      exact hstop e he
    · intro u hu
      by_contra hcon
      have h1 : s.timerActive u = false := by simpa using hcon
      rw [timerActive_eq_false_iff] at h1
      have h2 := foldl_stopTimer_inactive m s.timers u (Or.inr h1)
      rw [← foldl_clearEntry_timers, ← timerActive_eq_false_iff] at h2
      rw [h2] at hu
      exact absurd hu (by decide)
    · rw [foldl_clearEntry_timers]
      clear hmap hstop hm
      generalize s.timers = ts
      induction m generalizing ts with
      | nil => rfl
      | cons e rest ih => simp only [List.foldl_cons]; rw [ih]; simp [stopTimer]

/-! ## Expiry -/

/-- Expiry of a registered timer: when an armed, due timer fires that the
registry holds under the ID of the session it was created for, the callback
stops that timer and hands
exactly one request to `raftApply`: a `SessionDestroy` for that session ID
with the server's datacenter. The registry map is left as it was, no timer is
allocated or armed, and an error of the submission is only logged, the store
being untouched. -/
theorem sessionTimer_expiry_submits_one_destroy (s : Server) (t : Nat) (x : Timer)
    (applyErr : Option String)
    (hx : s.timers[t]? = some x)
    (hactive : x.active = true)
    (hdue : x.deadline ≤ s.now)
    (hreg : s.timerOf x.sessionID = some t) :
    ∃ s1, fireTimer s t applyErr = some (.ret s1 none) ∧
      s1.timerActive t = false ∧
      s1.applied = s.applied ++ [⟨s.Datacenter, .SessionDestroy, x.sessionID⟩] ∧
      s1.sessionTimers = s.sessionTimers ∧
      s1.timers.length = s.timers.length ∧
      (∀ u, u ≠ t → s1.timers[u]? = s.timers[u]?) ∧
      (∀ u, s1.timerActive u = true → s.timerActive u = true) ∧
      (∀ err, applyErr = some err →
        s1.state = s.state ∧
        s1.logger = s.logger ++ ["[ERR] consul.session: Apply failed: " ++ err]) ∧
      (applyErr = none →
        s1.state = s.state.SessionDestroy x.sessionID ∧ s1.logger = s.logger) := by
  have hreg1 : ({ s with timers := stopTimer s.timers t } : Server).timerOf x.sessionID = some t := hreg
  have hact : ∀ (s1 : Server), s1.timers = stopTimer (stopTimer s.timers t) t →
      ∀ u, s1.timerActive u = true → s.timerActive u = true := by
    intro s1 h1 u hu
    by_contra hcon
    have h2 : s.timerActive u = false := by simpa using hcon
    rw [timerActive_eq_false_iff] at h2
    have h3 := active_stopTimer_of_inactive _ t u (active_stopTimer_of_inactive _ t u h2)
    rw [← h1, ← timerActive_eq_false_iff] at h3
    rw [h3] at hu
    exact absurd hu (by decide)
  have hother : ∀ u, u ≠ t → (stopTimer (stopTimer s.timers t) t)[u]? = s.timers[u]? := by
    intro u hu
    rw [getElem?_stopTimer_of_ne _ t u (Ne.symm hu), getElem?_stopTimer_of_ne _ t u (Ne.symm hu)]
  cases applyErr with
  | some err =>
    refine ⟨{ s with timers := stopTimer (stopTimer s.timers t) t,
                      applied := s.applied ++ [⟨s.Datacenter, .SessionDestroy, x.sessionID⟩],
                      logger := s.logger ++ ["[ERR] consul.session: Apply failed: " ++ err] },
      ?_, timerActive_stopTimer_self _ _ t rfl, rfl, rfl, by simp [stopTimer], hother,
      hact _ rfl, ?_, ?_⟩
    · simp [fireTimer, hx, hactive, hdue, sessionTimerExpired, hreg1, raftApply]
    · intro e he
      simp only [Option.some.injEq] at he
      subst he
      exact ⟨rfl, rfl⟩
    · intro h
      simp at h
  | none =>
    refine ⟨{ s with timers := stopTimer (stopTimer s.timers t) t,
                      applied := s.applied ++ [⟨s.Datacenter, .SessionDestroy, x.sessionID⟩],
                      state := s.state.SessionDestroy x.sessionID },
      ?_, timerActive_stopTimer_self _ _ t rfl, rfl, rfl, by simp [stopTimer], hother,
      hact _ rfl, ?_, ?_⟩
    · simp [fireTimer, hx, hactive, hdue, sessionTimerExpired, hreg1, raftApply]
    · intro e he
      simp at he
    · intro _
      exact ⟨rfl, rfl⟩

/-- Expiry of a registered timer, an instance: the timer that
`resetSessionTimer` armed for session `a` fires at T=60s and the submission
fails with `leadership lost`. -/
theorem sessionTimer_expiry_submits_one_destroy_witness :
    resetSessionTimer parseDurationTable leaderServer "a" (some ⟨"a", "30s"⟩) =
      .ret { dueServer with now := 0 } none ∧
    ∃ s1, fireTimer dueServer 0 (some "leadership lost") = some (.ret s1 none) ∧
      s1.timerActive 0 = false ∧
      s1.applied = dueServer.applied ++ [⟨dueServer.Datacenter, .SessionDestroy, "a"⟩] ∧
      s1.sessionTimers = dueServer.sessionTimers ∧
      s1.timers.length = dueServer.timers.length ∧
      (∀ u, u ≠ 0 → s1.timers[u]? = dueServer.timers[u]?) ∧
      (∀ u, s1.timerActive u = true → dueServer.timerActive u = true) ∧
      (∀ err, some "leadership lost" = some err →
        s1.state = dueServer.state ∧
        s1.logger = dueServer.logger ++ ["[ERR] consul.session: Apply failed: " ++ err]) ∧
      ((some "leadership lost" : Option String) = none →
        s1.state = dueServer.state.SessionDestroy "a" ∧ s1.logger = dueServer.logger) :=
  ⟨by decide,
    sessionTimer_expiry_submits_one_destroy dueServer 0 ⟨"a", 60000000000, 0, true⟩
      (some "leadership lost") rfl rfl (by decide) rfl⟩

/-! ## Looking up the session (`resetSessionTimer` with a nil session) -/

/-- C10: `resetSessionTimer(id, nil)` returns the not-found error for `id`
and leaves the server, its registry included, unchanged when the store has no
session under `id` or the lookup fails; and whenever `resetSessionTimer`
returns a not-found error, no session was supplied, the error is the one for
`id`, the server is unchanged and the lookup found nothing or failed. -/
theorem resetSessionTimer_not_found (parseDuration : String → Except String Int)
    (s : Server) (id : String) :
    (s.state.SessionGet id = .ok none →
      resetSessionTimer parseDuration s id none = .ret s (some (.notFound id))) ∧
    (∀ e, s.state.SessionGet id = .error e →
      resetSessionTimer parseDuration s id none = .ret s (some (.notFound id))) ∧
    (∀ session s1 id1,
      resetSessionTimer parseDuration s id session = .ret s1 (some (.notFound id1)) →
      session = none ∧ id1 = id ∧ s1 = s ∧
      (s.state.SessionGet id = .ok none ∨ ∃ e, s.state.SessionGet id = .error e)) := by
  refine ⟨?_, ?_, ?_⟩
  · intro h
    simp [resetSessionTimer, h]
  · intro e h
    simp [resetSessionTimer, h]
  · intro session s1 id1 h
    cases session with
    | some x =>
      exfalso
      simp only [resetSessionTimer] at h
      split at h
      · split at h
        · simp at h
        · split at h
          · simp at h
          · split at h <;> simp at h
      · simp at h
    | none =>
      cases hget : s.state.SessionGet id with
      | error e =>
        simp only [resetSessionTimer, hget] at h
        simp only [Result.ret.injEq, Option.some.injEq, Error.notFound.injEq] at h
        exact ⟨rfl, h.2.symm, h.1.symm, Or.inr ⟨e, rfl⟩⟩
      | ok r =>
        cases r with
        | none =>
          simp only [resetSessionTimer, hget] at h
          simp only [Result.ret.injEq, Option.some.injEq, Error.notFound.injEq] at h
          exact ⟨rfl, h.2.symm, h.1.symm, Or.inl rfl⟩
        | some x =>
          exfalso
          simp only [resetSessionTimer, hget] at h
          split at h
          · split at h
            · simp at h
            · split at h
              · simp at h
              · split at h <;> simp at h
          · simp at h

/-- Witness for C10: the registry holds a timer for `a`; looking up the
unknown id `zz` finds nothing, and looking up `a` in a store whose query fails
yields the same error, the server being unchanged both times. -/
theorem resetSessionTimer_not_found_witness :
    renewServer.state.SessionGet "zz" = .ok none ∧
    resetSessionTimer parseDurationTable renewServer "zz" none =
      .ret renewServer (some (.notFound "zz")) ∧
    ({ renewServer with state := { sampleStore with getErr := some "closed" } } : Server).timerOf "a"
      = some 0 ∧
    resetSessionTimer parseDurationTable
        { renewServer with state := { sampleStore with getErr := some "closed" } } "a" none =
      .ret { renewServer with state := { sampleStore with getErr := some "closed" } }
        (some (.notFound "a")) :=
  ⟨rfl, (resetSessionTimer_not_found parseDurationTable renewServer "zz").1 rfl, rfl,
    (resetSessionTimer_not_found parseDurationTable
      { renewServer with state := { sampleStore with getErr := some "closed" } } "a").2.1
      "closed" rfl⟩

/-! ## The outcomes of `resetSessionTimer` and `initializeSessionTimers` -/

theorem resetSessionTimer_nil_session (parseDuration : String → Except String Int)
    (s : Server) (id : String) :
    resetSessionTimer parseDuration s id none =
      match s.state.SessionGet id with
      | .ok (some x) => resetSessionTimer parseDuration s id (some x)
      | _ => .ret s (some (.notFound id)) := by
  cases h : s.state.SessionGet id with
  | error e => simp [resetSessionTimer, h]
  | ok r =>
    cases r with
    | none => simp [resetSessionTimer, h]
    | some x => simp [resetSessionTimer, h]

theorem resetSessionTimer_cases (parseDuration : String → Except String Int)
    (s : Server) (m : TimerMap) (id : String) (x : Session) (hinit : s.sessionTimers = some m) :
    (x.TTL = "" ∧ resetSessionTimer parseDuration s id (some x) = .ret s none) ∨
    (x.TTL ≠ "" ∧ ∃ pe, parseDuration x.TTL = .error pe ∧
      resetSessionTimer parseDuration s id (some x) = .ret s (some (.invalidTTL x.TTL pe))) ∨
    (x.TTL ≠ "" ∧ ∃ d t, parseDuration x.TTL = .ok d ∧ m.get id = some t ∧
      resetSessionTimer parseDuration s id (some x) =
        .ret { s with timers := resetTimer s.timers t s.now (effectiveTTL d) } none) ∨
    (x.TTL ≠ "" ∧ ∃ d, parseDuration x.TTL = .ok d ∧ m.get id = none ∧
      resetSessionTimer parseDuration s id (some x) =
        .ret { s with timers := s.timers ++ [⟨x.ID, effectiveTTL d, s.now, true⟩],
                      sessionTimers := some (m.set x.ID s.timers.length) } none) := by
  by_cases httl : x.TTL = ""
  · exact Or.inl ⟨httl, by simp [resetSessionTimer, httl]⟩
  · cases hp : parseDuration x.TTL with
    | error pe =>
      exact Or.inr (Or.inl ⟨httl, pe, rfl, by simp [resetSessionTimer, httl, hp]⟩)
    | ok d =>
      cases hg : m.get id with
      | some t =>
        exact Or.inr (Or.inr (Or.inl ⟨httl, d, t, rfl, rfl,
          by simp [resetSessionTimer, httl, hp, hinit, hg]⟩))
      | none =>
        exact Or.inr (Or.inr (Or.inr ⟨httl, d, rfl, rfl,
          by simp [resetSessionTimer, httl, hp, hinit, hg, afterFunc]⟩))

theorem resetSessionTimers_outcome (parseDuration : String → Except String Int) :
    ∀ (sessions : List Session) (s : Server), s.sessionTimers ≠ none →
      ∃ s1 err, resetSessionTimers parseDuration s sessions = .ret s1 err ∧
        s1.sessionTimers ≠ none ∧
        (err = none ∨ ∃ x ∈ sessions, ∃ pe, x.TTL ≠ "" ∧ parseDuration x.TTL = .error pe ∧
          err = some (.invalidTTL x.TTL pe)) ∧
        ((∀ x ∈ sessions, x.TTL ≠ "" → ∃ d, parseDuration x.TTL = .ok d) → err = none) ∧
        (err = none → ∀ x ∈ sessions, x.TTL ≠ "" → ∃ d, parseDuration x.TTL = .ok d) := by
  intro sessions
  induction sessions with
  | nil =>
    intro s hs
    exact ⟨s, none, rfl, hs, Or.inl rfl, fun _ => rfl, fun _ x hx => absurd hx (by simp)⟩
  | cons x rest ih =>
    intro s hs
    obtain ⟨m, hm⟩ := Option.ne_none_iff_exists'.1 hs
    have hstep : ∀ s2 : Server, s2.sessionTimers ≠ none →
        (x.TTL ≠ "" → ∃ d, parseDuration x.TTL = .ok d) →
        resetSessionTimer parseDuration s x.ID (some x) = .ret s2 none →
        ∃ s1 err, resetSessionTimers parseDuration s (x :: rest) = .ret s1 err ∧
          s1.sessionTimers ≠ none ∧
          (err = none ∨ ∃ y ∈ x :: rest, ∃ pe, y.TTL ≠ "" ∧ parseDuration y.TTL = .error pe ∧
            err = some (.invalidTTL y.TTL pe)) ∧
          ((∀ y ∈ x :: rest, y.TTL ≠ "" → ∃ d, parseDuration y.TTL = .ok d) → err = none) ∧
          (err = none → ∀ y ∈ x :: rest, y.TTL ≠ "" → ∃ d, parseDuration y.TTL = .ok d) := by
      intro s2 hs2 hx hr
      obtain ⟨s1, err, hrun, hinit1, hcause, hall, hconv⟩ := ih s2 hs2
      refine ⟨s1, err, ?_, hinit1, ?_, ?_, ?_⟩
      · simp only [resetSessionTimers, hr]
        exact hrun
      · rcases hcause with h | ⟨y, hy, pe, h1, h2, h3⟩
        · exact Or.inl h
        · exact Or.inr ⟨y, List.mem_cons_of_mem _ hy, pe, h1, h2, h3⟩
      · intro h
        exact hall (fun y hy => h y (List.mem_cons_of_mem _ hy))
      · intro herr y hy
        rcases List.mem_cons.1 hy with h | h
        · subst h
          exact hx
        · exact hconv herr y h
    rcases resetSessionTimer_cases parseDuration s m x.ID x hm with
      ⟨httl, hr⟩ | ⟨httl, pe, hp, hr⟩ | ⟨_, d, t, hp, _, hr⟩ | ⟨_, d, hp, _, hr⟩
    · exact hstep s hs (fun h => absurd httl h) hr
    · refine ⟨s, some (.invalidTTL x.TTL pe), ?_, hs, ?_, ?_, ?_⟩
      · simp only [resetSessionTimers, hr]
      · exact Or.inr ⟨x, List.mem_cons_self _ _, pe, httl, hp, rfl⟩
      · intro h
        obtain ⟨d, hd⟩ := h x (List.mem_cons_self _ _) httl
        rw [hp] at hd
        exact absurd hd (by simp)
      · intro h
        exact absurd h (by simp)
    · exact hstep _ (by simp [hm]) (fun _ => ⟨d, hp⟩) hr
    · exact hstep _ (by simp) (fun _ => ⟨d, hp⟩) hr

/-- C11, amended: `initializeSessionTimers` always returns, with an
initialized registry. When `SessionListTTL` fails it returns that same error
and the registry is a new empty map, the rest of the server being unchanged.
When the query succeeds it fails exactly when a listed session has a non-empty
TTL that does not parse, and the error it returns is then the
`Invalid Session TTL` error of such a session; it returns nil exactly when
every listed non-empty TTL parses. -/
theorem initializeSessionTimers_failures (parseDuration : String → Except String Int)
    (s : Server) :
    ∃ s1 err, initializeSessionTimers parseDuration s = .ret s1 err ∧
      s1.sessionTimers ≠ none ∧
      (∀ e, s.state.SessionListTTL = .error e →
        err = some (.store e) ∧ s1 = { s with sessionTimers := some [] }) ∧
      (∀ sessions, s.state.SessionListTTL = .ok sessions →
        (err = none ∨ ∃ x ∈ sessions, ∃ pe, x.TTL ≠ "" ∧ parseDuration x.TTL = .error pe ∧
          err = some (.invalidTTL x.TTL pe)) ∧
        ((∀ x ∈ sessions, x.TTL ≠ "" → ∃ d, parseDuration x.TTL = .ok d) → err = none) ∧
        ((∃ x ∈ sessions, ∃ pe, x.TTL ≠ "" ∧ parseDuration x.TTL = .error pe) →
          ∃ y ∈ sessions, ∃ pe, y.TTL ≠ "" ∧ parseDuration y.TTL = .error pe ∧
            err = some (.invalidTTL y.TTL pe)) ∧
        (err = none ↔ ∀ x ∈ sessions, x.TTL ≠ "" → ∃ d, parseDuration x.TTL = .ok d)) := by
  cases hl : s.state.SessionListTTL with
  | error e =>
    have hl1 : ({ s with sessionTimers := some [] } : Server).state.SessionListTTL = .error e := hl
    refine ⟨{ s with sessionTimers := some [] }, some (.store e), ?_, by simp, ?_, ?_⟩
    · simp only [initializeSessionTimers, hl1]
    · intro e1 h
      simp only [Except.error.injEq] at h
      subst h
      exact ⟨rfl, rfl⟩
    · intro sessions h
      simp at h
  | ok sessions =>
    have hl1 : ({ s with sessionTimers := some [] } : Server).state.SessionListTTL = .ok sessions := hl
    obtain ⟨s1, err, hrun, hinit, hcause, hall, hconv⟩ :=
      resetSessionTimers_outcome parseDuration sessions { s with sessionTimers := some [] } (by simp)
    refine ⟨s1, err, ?_, hinit, ?_, ?_⟩
    · simp only [initializeSessionTimers, hl1]
      exact hrun
    · intro e h
      simp at h
    · intro sessions1 h
      simp only [Except.ok.injEq] at h
      subst h
      refine ⟨hcause, hall, ?_, ⟨hconv, hall⟩⟩
      rintro ⟨x, hx, pe, hne, hpe⟩
      rcases hcause with h | h
      · obtain ⟨d, hd⟩ := hconv h x hx hne
        rw [hpe] at hd
        exact absurd hd (by simp)
      · exact h

/-- Counterexample to C11 as stated: with a store whose `SessionListTTL`
succeeds but lists session `c` with the TTL `abc`, `initializeSessionTimers`
fails with `Invalid Session TTL` after the prior entry `stale` was dropped and
a timer for `a` was armed; and when the query fails, the prior entry of `a`
is dropped as well. -/
theorem initializeSessionTimers_fails_after_applying :
    invalidTTLStore.SessionListTTL = .ok [⟨"a", "30s"⟩, ⟨"c", "abc"⟩] ∧
    initializeSessionTimers parseDurationTable
        { leaderServer with sessionTimers := some [("stale", 7)], state := invalidTTLStore } =
      .ret { leaderServer with sessionTimers := some [("a", 0)],
                               timers := [⟨"a", 60000000000, 0, true⟩],
                               state := invalidTTLStore }
        (some (.invalidTTL "abc" "time: invalid duration")) ∧
    initializeSessionTimers parseDurationTable { renewServer with state := closedStore } =
      .ret { renewServer with sessionTimers := some [], state := closedStore }
        (some (.store "closed")) ∧
    ({ renewServer with state := closedStore } : Server).timerKeys = ["a"] ∧
    ({ renewServer with sessionTimers := some [], state := closedStore } : Server).timerKeys = [] :=
  ⟨rfl, by decide, by decide, rfl, rfl⟩

/-! ## The effective TTL -/

/-- C13, amended: for a TTL of `d` nanoseconds with `-2 ^ 62 ≤ d < 2 ^ 62` the
64-bit product `d * SessionTTLMultiplier` is `2 * d`, without wrap-around, so a
positive TTL in that range yields a positive window larger than the TTL. -/
theorem effectiveTTL_doubles (d : Int) (hrange : -2 ^ 62 ≤ d ∧ d < 2 ^ 62) :
    effectiveTTL d = d * SessionTTLMultiplier ∧
    effectiveTTL d = 2 * d ∧
    (0 < d → 0 < effectiveTTL d ∧ d < effectiveTTL d) := by
  have h2 : effectiveTTL d = 2 * d := by
    apply effectiveTTL_of_range
    norm_num at hrange ⊢
    omega
  refine ⟨?_, h2, ?_⟩
  · rw [h2, SessionTTLMultiplier, mul_comm]
  · intro hpos
    rw [h2]
    omega

/-- Witness for C13: a TTL of 30 seconds yields a window of 60 seconds. -/
theorem effectiveTTL_doubles_witness :
    (-2 ^ 62 ≤ (30000000000 : Int) ∧ (30000000000 : Int) < 2 ^ 62) ∧
    effectiveTTL 30000000000 = 30000000000 * SessionTTLMultiplier ∧
    effectiveTTL 30000000000 = 2 * 30000000000 ∧
    ((0 : Int) < 30000000000 →
      0 < effectiveTTL 30000000000 ∧ 30000000000 < effectiveTTL 30000000000) :=
  ⟨by decide, effectiveTTL_doubles 30000000000 (by decide)⟩

/-- Counterexample to C13 as stated: the TTL `4611686018427387904ns` is a
positive 64-bit duration `d = 2 ^ 62`, and `resetSessionTimer` arms the timer
of the session with `-2 ^ 63` nanoseconds, which is neither `2 * d` nor
positive. -/
theorem effectiveTTL_wraps_around :
    parseDurationTable "4611686018427387904ns" = .ok 4611686018427387904 ∧
    ((0 : Int) < 4611686018427387904 ∧ (4611686018427387904 : Int) < 2 ^ 63) ∧
    effectiveTTL 4611686018427387904 = -9223372036854775808 ∧
    effectiveTTL 4611686018427387904 ≠ 2 * 4611686018427387904 ∧
    resetSessionTimer parseDurationTable leaderServer "a"
        (some ⟨"a", "4611686018427387904ns"⟩) =
      .ret { leaderServer with timers := [⟨"a", -9223372036854775808, 0, true⟩],
                               sessionTimers := some [("a", 0)] } none :=
  ⟨rfl, by decide, by decide, by decide, by decide⟩

/-! ## Invalid TTL -/

/-- C17: for every registry state (nil included), id and session whose
non-empty TTL is rejected by `time.ParseDuration`, `resetSessionTimer` returns
the `Invalid Session TTL` error carrying the TTL and the parse error, without
panicking, and leaves the server, its registry and its timers unchanged; so it
does when the session is found in the store under `id`. -/
theorem resetSessionTimer_invalid_TTL (parseDuration : String → Except String Int)
    (s : Server) (id : String) (session : Session) (pe : String)
    (hne : session.TTL ≠ "")
    (hparse : parseDuration session.TTL = .error pe) :
    resetSessionTimer parseDuration s id (some session) =
      .ret s (some (.invalidTTL session.TTL pe)) ∧
    (s.state.SessionGet id = .ok (some session) →
      resetSessionTimer parseDuration s id none = .ret s (some (.invalidTTL session.TTL pe))) := by
  constructor
  · simp [resetSessionTimer, hne, hparse]
  · intro hget
    simp [resetSessionTimer, hget, hne, hparse]

/-- Witness for C17: session `c` with TTL `abc` on a server whose timer map is
nil. -/
theorem resetSessionTimer_invalid_TTL_witness :
    (⟨"c", "abc"⟩ : Session).TTL ≠ "" ∧
    parseDurationTable "abc" = .error "time: invalid duration" ∧
    freshServer.sessionTimers = none ∧
    resetSessionTimer parseDurationTable freshServer "c" (some ⟨"c", "abc"⟩) =
      .ret freshServer (some (.invalidTTL "abc" "time: invalid duration")) :=
  ⟨by decide, rfl, rfl,
    (resetSessionTimer_invalid_TTL parseDurationTable freshServer "c" ⟨"c", "abc"⟩
      "time: invalid duration" (by decide) rfl).1⟩

/-! ## The registry stays initialized -/

theorem StateStore.SessionGet_ID (st : StateStore) (id : String) (x : Session)
    (h : st.SessionGet id = .ok (some x)) : x.ID = id := by
  unfold StateStore.SessionGet at h
  cases hErr : st.getErr with
  | some e => simp [hErr] at h
  | none =>
    simp only [hErr, Except.ok.injEq] at h
    simpa using List.find?_some h

theorem resetSessionTimer_initialized (parseDuration : String → Except String Int)
    (s : Server) (id : String) (session : Option Session) (h : s.sessionTimers ≠ none) :
    ∃ s1 err, resetSessionTimer parseDuration s id session = .ret s1 err ∧
      s1.sessionTimers ≠ none := by
  obtain ⟨m, hm⟩ := Option.ne_none_iff_exists'.1 h
  have hsome : ∀ x : Session, ∃ s1 err,
      resetSessionTimer parseDuration s id (some x) = .ret s1 err ∧ s1.sessionTimers ≠ none := by
    intro x
    rcases resetSessionTimer_cases parseDuration s m id x hm with
      ⟨_, hr⟩ | ⟨_, pe, _, hr⟩ | ⟨_, d, t, _, _, hr⟩ | ⟨_, d, _, _, hr⟩
    · exact ⟨_, _, hr, h⟩
    · exact ⟨_, _, hr, h⟩
    · exact ⟨_, _, hr, by simp [hm]⟩
    · exact ⟨_, _, hr, by simp⟩
  cases session with
  | some x => exact hsome x
  | none =>
    rw [resetSessionTimer_nil_session]
    cases hg : s.state.SessionGet id with
    | error e => exact ⟨s, _, rfl, h⟩
    | ok r =>
      cases r with
      | none => exact ⟨s, _, rfl, h⟩
      | some x => exact hsome x

theorem fireTimer_sessionTimers (s : Server) (t : Nat) (applyErr : Option String) (r : Result)
    (s1 : Server) (hf : fireTimer s t applyErr = some r) (hr : r.server = some s1) :
    s1.sessionTimers = s.sessionTimers := by
  unfold fireTimer at hf
  cases hx : s.timers[t]? with
  | none => simp [hx] at hf
  | some x =>
    simp only [hx] at hf
    split at hf
    · simp only [Option.some.injEq] at hf
      subst hf
      unfold sessionTimerExpired at hr
      cases ht : ({ s with timers := stopTimer s.timers t } : Server).timerOf x.sessionID with
      | none => simp [ht, Result.server] at hr
      | some u =>
        cases applyErr with
        | none =>
          simp only [ht, raftApply, Result.server, Option.some.injEq] at hr
          rw [← hr]
        | some e =>
          simp only [ht, raftApply, Result.server, Option.some.injEq] at hr
          rw [← hr]
    · simp at hf

theorem step_initialized (parseDuration : String → Except String Int) (s s1 : Server)
    (a : Action) (h : s.sessionTimers ≠ none) (hstep : step parseDuration s a = some s1) :
    s1.sessionTimers ≠ none := by
  cases a with
  | initializeSessionTimers =>
    obtain ⟨s2, err, hrun, hinit, -⟩ :=
      resetSessionTimers_outcome parseDuration
        (match s.state.SessionListTTL with | .ok l => l | .error _ => [])
        { s with sessionTimers := some [] } (by simp)
    simp only [step, initializeSessionTimers] at hstep
    cases hl : s.state.SessionListTTL with
    | error e =>
      have hl1 : ({ s with sessionTimers := some [] } : Server).state.SessionListTTL = .error e := hl
      simp only [hl1, Result.server, Option.some.injEq] at hstep
      rw [← hstep]
      simp
    | ok l =>
      have hl1 : ({ s with sessionTimers := some [] } : Server).state.SessionListTTL = .ok l := hl
      simp only [hl] at hrun
      simp only [hl1, hrun, Result.server, Option.some.injEq] at hstep
      rw [← hstep]
      exact hinit
  | resetSessionTimer id session =>
    obtain ⟨s2, err, hr, hinit⟩ := resetSessionTimer_initialized parseDuration s id session h
    simp only [step, hr, Result.server, Option.some.injEq] at hstep
    rw [← hstep]
    exact hinit
  | clearSessionTimer id =>
    obtain ⟨m, hm⟩ := Option.ne_none_iff_exists'.1 h
    simp only [step, clearSessionTimer, hm] at hstep
    cases hg : m.get id with
    | none =>
      simp only [hg, Result.server, Option.some.injEq] at hstep
      rw [← hstep]
      exact h
    | some t =>
      simp only [hg, Result.server, Option.some.injEq] at hstep
      rw [← hstep]
      simp
  | clearAllSessionTimers =>
    obtain ⟨m, hm⟩ := Option.ne_none_iff_exists'.1 h
    simp only [step, clearAllSessionTimers, hm, Result.server, Option.some.injEq] at hstep
    rw [← hstep, foldl_clearEntry_sessionTimers, hm]
    simp
  | expire t applyErr =>
    simp only [step] at hstep
    cases hf : fireTimer s t applyErr with
    | none => simp [hf] at hstep
    | some r =>
      simp only [hf, Option.bind_some] at hstep
      rw [fireTimer_sessionTimers s t applyErr r s1 hf hstep]
      exact h
  | sleep dt =>
    simp only [step, sleep, Option.some.injEq] at hstep
    rw [← hstep]
    exact h

theorem run_initialized (parseDuration : String → Except String Int) :
    ∀ (acts : List Action) (s s1 : Server), s.sessionTimers ≠ none →
      run parseDuration s acts = some s1 → s1.sessionTimers ≠ none := by
  intro acts
  induction acts with
  | nil =>
    intro s s1 h hrun
    simp only [run, Option.some.injEq] at hrun
    rw [← hrun]
    exact h
  | cons a rest ih =>
    intro s s1 h hrun
    simp only [run] at hrun
    cases hs : step parseDuration s a with
    | none => simp [hs] at hrun
    | some s2 =>
      simp only [hs, Option.bind_some] at hrun
      exact ih s2 s1 (step_initialized parseDuration s s2 a h hs) hrun

theorem initializeSessionTimers_initialized (parseDuration : String → Except String Int)
    (s s1 : Server) (hstep : step parseDuration s .initializeSessionTimers = some s1) :
    s1.sessionTimers ≠ none := by
  have h0 : step parseDuration { s with sessionTimers := some [] } .initializeSessionTimers = some s1 := hstep
  exact step_initialized parseDuration _ s1 _ (by simp) h0

/-- C15: in every state reached by `initializeSessionTimers` followed by any
sequence of operations and runtime events the timer map is non-nil, and there
`resetSessionTimer` returns for every id and session instead of panicking,
leaving the map non-nil. In any state whatsoever `resetSessionTimer` panics
exactly when the map is nil and the session, supplied or found under the id,
has a non-empty TTL that parses. -/
theorem resetSessionTimer_never_panics_once_initialized
    (parseDuration : String → Except String Int) (s0 s : Server) (acts : List Action)
    (id : String) (session : Option Session)
    (hrun : run parseDuration s0 (.initializeSessionTimers :: acts) = some s) :
    s.sessionTimers ≠ none ∧
    (∃ s1 err, resetSessionTimer parseDuration s id session = .ret s1 err ∧
      s1.sessionTimers ≠ none) ∧
    (∀ (s2 : Server) (id2 : String) (session2 : Option Session),
      (∃ msg, resetSessionTimer parseDuration s2 id2 session2 = .panic msg) ↔
        s2.sessionTimers = none ∧
        ∃ x d, (session2 = some x ∨ (session2 = none ∧ s2.state.SessionGet id2 = .ok (some x))) ∧
          x.TTL ≠ "" ∧ parseDuration x.TTL = .ok d) := by
  have hs : s.sessionTimers ≠ none := by
    simp only [run] at hrun
    cases h1 : step parseDuration s0 .initializeSessionTimers with
    | none => simp [h1] at hrun
    | some s1 =>
      simp only [h1, Option.bind_some] at hrun
      exact run_initialized parseDuration acts s1 s
        (initializeSessionTimers_initialized parseDuration s0 s1 h1) hrun
  refine ⟨hs, resetSessionTimer_initialized parseDuration s id session hs, ?_⟩
  intro s2 id2 session2
  have hsome : ∀ x : Session,
      (∃ msg, resetSessionTimer parseDuration s2 id2 (some x) = .panic msg) ↔
        s2.sessionTimers = none ∧ ∃ d, x.TTL ≠ "" ∧ parseDuration x.TTL = .ok d := by
    intro x
    constructor
    · rintro ⟨msg, hp⟩
      cases hm : s2.sessionTimers with
      | some m =>
        obtain ⟨s3, err, hr, -⟩ :=
          resetSessionTimer_initialized parseDuration s2 id2 (some x) (by simp [hm])
        rw [hr] at hp
        exact absurd hp (by simp)
      | none =>
        refine ⟨rfl, ?_⟩
        by_cases httl : x.TTL = ""
        · simp [resetSessionTimer, httl] at hp
        · cases hd : parseDuration x.TTL with
          | error pe => simp [resetSessionTimer, httl, hd] at hp
          | ok d => exact ⟨d, httl, rfl⟩
    · rintro ⟨hm, d, httl, hd⟩
      exact ⟨"Invalid call to resetSessionTimer before creation of session timers in leaderLoop",
        by simp [resetSessionTimer, httl, hd, hm]⟩
  cases session2 with
  | some x =>
    rw [hsome x]
    constructor
    · rintro ⟨hm, d, httl, hd⟩
      exact ⟨hm, x, d, Or.inl rfl, httl, hd⟩
    · rintro ⟨hm, y, d, hy, httl, hd⟩
      rcases hy with hy | ⟨hy, -⟩
      · simp only [Option.some.injEq] at hy
        subst hy
        exact ⟨hm, d, httl, hd⟩
      · simp at hy
  | none =>
    rw [resetSessionTimer_nil_session]
    cases hg : s2.state.SessionGet id2 with
    | error e =>
      constructor
      · rintro ⟨msg, hp⟩
        simp at hp
      · rintro ⟨-, y, d, hy, -, -⟩
        rcases hy with hy | ⟨-, hy⟩ <;> simp at hy
    | ok r =>
      cases r with
      | none =>
        constructor
        · rintro ⟨msg, hp⟩
          simp at hp
        · rintro ⟨-, y, d, hy, -, -⟩
          rcases hy with hy | ⟨-, hy⟩ <;> simp at hy
      | some x =>
        have hred : (match (Except.ok (some x) : Except String (Option Session)) with
            | .ok (some x) => resetSessionTimer parseDuration s2 id2 (some x)
            | _ => .ret s2 (some (.notFound id2))) =
            resetSessionTimer parseDuration s2 id2 (some x) := rfl
        rw [hred, hsome x]
        constructor
        · rintro ⟨hm, d, httl, hd⟩
          exact ⟨hm, x, d, Or.inr (by simp), httl, hd⟩
        · rintro ⟨hm, y, d, hy, httl, hd⟩
          rcases hy with hy | ⟨-, hy⟩
          · simp at hy
          · simp only [Except.ok.injEq, Option.some.injEq] at hy
            subst hy
            exact ⟨hm, d, httl, hd⟩

/-- Witness for C15: a server with a nil map runs `initializeSessionTimers`
and one second passes; a renewal of `a` by id then returns. -/
theorem resetSessionTimer_never_panics_once_initialized_witness :
    run parseDurationTable freshServer [.initializeSessionTimers, .sleep 1000000000] =
      some { renewServer with now := 1000000000 } ∧
    ({ renewServer with now := 1000000000 } : Server).sessionTimers ≠ none ∧
    ∃ s1 err, resetSessionTimer parseDurationTable { renewServer with now := 1000000000 } "a" none =
      .ret s1 err ∧ s1.sessionTimers ≠ none :=
  ⟨by decide,
    (resetSessionTimer_never_panics_once_initialized parseDurationTable freshServer
      { renewServer with now := 1000000000 } [.sleep 1000000000] "a" none (by decide)).1,
    (resetSessionTimer_never_panics_once_initialized parseDurationTable freshServer
      { renewServer with now := 1000000000 } [.sleep 1000000000] "a" none (by decide)).2.1⟩

/-! ## The key under which `resetSessionTimer` arms -/

/-- Arming under `id` when the keys agree: on an initialized registry, for a
supplied session with a non-empty parseable TTL, when the registry already
holds a timer under `id`
(a timer of the heap) or the session's own ID is `id`,
`resetSessionTimer(id, session)` returns nil and the registry holds an armed
timer under the key `id`. -/
theorem resetSessionTimer_arms_under_id (parseDuration : String → Except String Int)
    (s : Server) (m : TimerMap) (id : String) (session : Session) (d : Int)
    (hinit : s.sessionTimers = some m)
    (hheap : ∀ t, m.get id = some t → t < s.timers.length)
    (hne : session.TTL ≠ "")
    (hparse : parseDuration session.TTL = .ok d)
    (hkey : (∃ t, m.get id = some t) ∨ session.ID = id) :
    ∃ s1 t, resetSessionTimer parseDuration s id (some session) = .ret s1 none ∧
      s1.timerOf id = some t ∧ s1.timerActive t = true := by
  cases hg : m.get id with
  | some t =>
    have hlt := hheap t hg
    refine ⟨{ s with timers := resetTimer s.timers t s.now (effectiveTTL d) }, t, ?_, ?_, ?_⟩
    · simp [resetSessionTimer, hne, hparse, hinit, hg]
    · simp [Server.timerOf, hinit, hg]
    · simp only [Server.timerActive, resetTimer, List.getElem?_modify_eq]
      rw [List.getElem?_eq_getElem hlt]
      rfl
  | none =>
    have hid : session.ID = id := by
      rcases hkey with ⟨t, ht⟩ | h
      · rw [hg] at ht
        exact absurd ht (by simp)
      · exact h
    refine ⟨{ s with timers := s.timers ++ [⟨session.ID, effectiveTTL d, s.now, true⟩],
                      sessionTimers := some (m.set session.ID s.timers.length) },
      s.timers.length, ?_, ?_, ?_⟩
    · simp [resetSessionTimer, hne, hparse, hinit, hg, afterFunc]
    · simp [Server.timerOf, ← hid, TimerMap.get_set_self]
    · simp [Server.timerActive]

/-- Arming under `id` when the keys agree, an instance: session `a` is armed
under its own ID on an empty registry. -/
theorem resetSessionTimer_arms_under_id_witness :
    ∃ s1 t, resetSessionTimer parseDurationTable leaderServer "a" (some ⟨"a", "30s"⟩) =
        .ret s1 none ∧
      s1.timerOf "a" = some t ∧ s1.timerActive t = true :=
  resetSessionTimer_arms_under_id parseDurationTable leaderServer [] "a" ⟨"a", "30s"⟩
    30000000000 rfl (by intro t ht; simp [TimerMap.get] at ht) (by decide) rfl (Or.inr rfl)

/-- C16, the code at the failing input: `resetSessionTimer("x", session)` with
the session `a` (TTL `30s`) on an empty initialized registry returns nil, but
the new timer is stored under the session's ID `a` and the registry holds
nothing under the key `x`; the same call made again finds nothing under `x`
and arms a second live timer for `a`. -/
theorem resetSessionTimer_arms_under_session_ID :
    resetSessionTimer parseDurationTable leaderServer "x" (some ⟨"a", "30s"⟩) =
      .ret { leaderServer with timers := [⟨"a", 60000000000, 0, true⟩],
                               sessionTimers := some [("a", 0)] } none ∧
    ({ leaderServer with timers := [⟨"a", 60000000000, 0, true⟩],
                         sessionTimers := some [("a", 0)] } : Server).timerOf "x" = none ∧
    ({ leaderServer with timers := [⟨"a", 60000000000, 0, true⟩],
                         sessionTimers := some [("a", 0)] } : Server).timerOf "a" = some 0 ∧
    (run parseDurationTable leaderServer
        [.resetSessionTimer "x" (some ⟨"a", "30s"⟩), .resetSessionTimer "x" (some ⟨"a", "30s"⟩)]).map
      (fun s => (s.timerOf "x", s.timerKeys, liveTimers s "a")) =
    some (none, ["a"], [⟨"a", 60000000000, 0, true⟩, ⟨"a", 60000000000, 0, true⟩]) :=
  ⟨by decide, rfl, rfl, by decide⟩

/-! ## What `resetSessionTimer` leaves alone -/

theorem TimerMap.length_set_le (m : TimerMap) (id : String) (t : Nat) :
    (m.set id t).keys.length ≤ m.keys.length + 1 := by
  simp only [TimerMap.set, TimerMap.keys, TimerMap.delete, List.length_cons, List.length_map]
  exact Nat.succ_le_succ (List.length_filter_le _ _)

theorem resetSessionTimer_frame_supplied (parseDuration : String → Except String Int)
    (s : Server) (m : TimerMap) (id : String) (x : Session) (hinit : s.sessionTimers = some m) :
    ∃ s1 err, resetSessionTimer parseDuration s id (some x) = .ret s1 err ∧
      (∀ k, k ≠ id → k ≠ x.ID → s1.timerOf k = s.timerOf k) ∧
      s1.timerKeys.length ≤ s.timerKeys.length + 1 ∧
      (∀ u, s.timerOf id ≠ some u → u < s.timers.length → s1.timers[u]? = s.timers[u]?) := by
  rcases resetSessionTimer_cases parseDuration s m id x hinit with
    ⟨_, hr⟩ | ⟨_, pe, _, hr⟩ | ⟨_, d, t, _, hg, hr⟩ | ⟨_, d, _, hg, hr⟩
  · exact ⟨_, _, hr, fun _ _ _ => rfl, Nat.le_succ _, fun _ _ _ => rfl⟩
  · exact ⟨_, _, hr, fun _ _ _ => rfl, Nat.le_succ _, fun _ _ _ => rfl⟩
  · refine ⟨_, _, hr, fun _ _ _ => rfl, Nat.le_succ _, ?_⟩
    intro u hu _
    have hne : t ≠ u := by
      intro h
      apply hu
      simp [Server.timerOf, hinit, hg, h]
    simp [resetTimer, List.getElem?_modify_ne _ _ hne]
  · refine ⟨_, _, hr, ?_, ?_, ?_⟩
    · intro k _ hk
      simp [Server.timerOf, hinit, TimerMap.get_set_of_ne m x.ID k _ hk]
    · simp only [Server.timerKeys, hinit]
      exact TimerMap.length_set_le m x.ID s.timers.length
    · intro u _ hlt
      simp [List.getElem?_append_left hlt]

/-- C18: on an initialized registry `resetSessionTimer(id, session)` always
returns, with or without an error, and afterwards every entry whose key
differs from `id` and from the ID of the supplied session is as before, the
registry has at most one entry more, and every timer other than the one
registered under `id` is unchanged. -/
theorem resetSessionTimer_touches_one_entry (parseDuration : String → Except String Int)
    (s : Server) (m : TimerMap) (id : String) (session : Option Session)
    (hinit : s.sessionTimers = some m) :
    ∃ s1 err, resetSessionTimer parseDuration s id session = .ret s1 err ∧
      (∀ k, k ≠ id → (∀ x, session = some x → k ≠ x.ID) → s1.timerOf k = s.timerOf k) ∧
      s1.timerKeys.length ≤ s.timerKeys.length + 1 ∧
      (∀ u, s.timerOf id ≠ some u → u < s.timers.length → s1.timers[u]? = s.timers[u]?) := by
  cases session with
  | some x =>
    obtain ⟨s1, err, hr, hkeys, hlen, htimers⟩ :=
      resetSessionTimer_frame_supplied parseDuration s m id x hinit
    exact ⟨s1, err, hr, fun k hk hx => hkeys k hk (hx x rfl), hlen, htimers⟩
  | none =>
    rw [resetSessionTimer_nil_session]
    cases hg : s.state.SessionGet id with
    | error e => exact ⟨s, _, rfl, fun _ _ _ => rfl, Nat.le_succ _, fun _ _ _ => rfl⟩
    | ok r =>
      cases r with
      | none => exact ⟨s, _, rfl, fun _ _ _ => rfl, Nat.le_succ _, fun _ _ _ => rfl⟩
      | some x =>
        have hid : x.ID = id := StateStore.SessionGet_ID s.state id x hg
        obtain ⟨s1, err, hr, hkeys, hlen, htimers⟩ :=
          resetSessionTimer_frame_supplied parseDuration s m id x hinit
        exact ⟨s1, err, hr, fun k hk _ => hkeys k hk (by rw [hid]; exact hk), hlen, htimers⟩

/-- Witness for C18: a timer is armed for the new session `z` on a registry
that holds the timer of `a`. -/
theorem resetSessionTimer_touches_one_entry_witness :
    renewServer.sessionTimers = some [("a", 0)] ∧
    ∃ s1 err, resetSessionTimer parseDurationTable renewServer "z" (some ⟨"z", "30s"⟩) =
        .ret s1 err ∧
      (∀ k, k ≠ "z" → (∀ x, some (⟨"z", "30s"⟩ : Session) = some x → k ≠ x.ID) →
        s1.timerOf k = renewServer.timerOf k) ∧
      s1.timerKeys.length ≤ renewServer.timerKeys.length + 1 ∧
      (∀ u, renewServer.timerOf "z" ≠ some u → u < renewServer.timers.length →
        s1.timers[u]? = renewServer.timers[u]?) :=
  ⟨rfl, resetSessionTimer_touches_one_entry parseDurationTable renewServer [("a", 0)] "z"
    (some ⟨"z", "30s"⟩) rfl⟩

/-! ## Lock discipline of the expiry callback -/

/-- C14, the code at the failing input: the expiry callback reads
`s.sessionTimers[session.ID]` without taking `sessionTimersLock`, in every
state and for every session, whereas `clearSessionTimer` touches the map
under the lock; so do `initializeSessionTimers`, `resetSessionTimer` and
`clearAllSessionTimers` on the server whose timer for `a` is due. -/
theorem sessionTimerExpired_reads_map_without_lock (s : Server) (sessionID : String) :
    sessionTimerExpiredAccesses s sessionID ≠ [] ∧
    (sessionTimerExpiredAccesses s sessionID).head? = some (.mapRead sessionID) ∧
    lockDiscipline false (sessionTimerExpiredAccesses s sessionID) = false ∧
    lockDiscipline false (clearSessionTimerAccesses s sessionID) = true ∧
    sessionTimerExpiredAccesses dueServer "a" = [.mapRead "a", .raftApply] ∧
    lockDiscipline false (initializeSessionTimersAccesses parseDurationTable dueServer) = true ∧
    lockDiscipline false
      (resetSessionTimerAccesses parseDurationTable dueServer "a" none) = true ∧
    lockDiscipline false (clearAllSessionTimersAccesses dueServer) = true := by
  refine ⟨?_, ?_, ?_, ?_, by decide, by decide, by decide, by decide⟩
  · unfold sessionTimerExpiredAccesses
    cases s.timerOf sessionID <;> simp
  · unfold sessionTimerExpiredAccesses
    cases s.timerOf sessionID <;> rfl
  · unfold sessionTimerExpiredAccesses
    cases s.timerOf sessionID <;> rfl
  · unfold clearSessionTimerAccesses
    cases s.timerOf sessionID <;> rfl

/-! ## Expiry after a clear -/

theorem fireTimer_unregistered (s : Server) (t : Nat) (x : Timer) (applyErr : Option String)
    (hx : s.timers[t]? = some x) (hreg : s.timerOf x.sessionID = none) :
    fireTimer s t applyErr = none ∨
    fireTimer s t applyErr = some (.panic "invalid memory address or nil pointer dereference") := by
  have hreg1 : ({ s with timers := stopTimer s.timers t } : Server).timerOf x.sessionID = none := hreg
  unfold fireTimer
  simp only [hx]
  split
  · right
    simp [sessionTimerExpired, hreg1]
  · left
    rfl

theorem fireTimer_applied (s s1 : Server) (t : Nat) (applyErr : Option String) (r : Result)
    (hf : fireTimer s t applyErr = some r) (hr : r.server = some s1) :
    ∃ x u, s.timers[t]? = some x ∧ s.timerOf x.sessionID = some u ∧
      s1.applied = s.applied ++ [⟨s.Datacenter, .SessionDestroy, x.sessionID⟩] := by
  unfold fireTimer at hf
  cases hx : s.timers[t]? with
  | none => simp [hx] at hf
  | some x =>
    simp only [hx] at hf
    split at hf
    · simp only [Option.some.injEq] at hf
      subst hf
      unfold sessionTimerExpired at hr
      cases ht : ({ s with timers := stopTimer s.timers t } : Server).timerOf x.sessionID with
      | none => simp [ht, Result.server] at hr
      | some u =>
        refine ⟨x, u, rfl, ht, ?_⟩
        cases applyErr with
        | none =>
          simp only [ht, raftApply, Result.server, Option.some.injEq] at hr
          rw [← hr]
        | some e =>
          simp only [ht, raftApply, Result.server, Option.some.injEq] at hr
          rw [← hr]
    · simp at hf

theorem resetSessionTimer_quiet (parseDuration : String → Except String Int)
    (s s1 : Server) (id : String) (x : Session) (err : Option Error)
    (hr : resetSessionTimer parseDuration s id (some x) = .ret s1 err) :
    s1.applied = s.applied ∧ ∀ k, k ≠ x.ID → s1.timerOf k = s.timerOf k := by
  cases hm : s.sessionTimers with
  | none =>
    by_cases httl : x.TTL = ""
    · simp only [resetSessionTimer, httl] at hr
      simp only [ne_eq, not_true_eq_false, if_false, Result.ret.injEq] at hr
      rw [← hr.1]
      exact ⟨rfl, fun _ _ => rfl⟩
    · cases hp : parseDuration x.TTL with
      | error pe =>
        simp only [resetSessionTimer, httl, hp, ne_eq, not_false_eq_true, if_true,
          Result.ret.injEq] at hr
        rw [← hr.1]
        exact ⟨rfl, fun _ _ => rfl⟩
      | ok d => simp [resetSessionTimer, httl, hp, hm] at hr
  | some m =>
    rcases resetSessionTimer_cases parseDuration s m id x hm with
      ⟨_, h⟩ | ⟨_, pe, _, h⟩ | ⟨_, d, t, _, _, h⟩ | ⟨_, d, _, _, h⟩
    · rw [h] at hr
      simp only [Result.ret.injEq] at hr
      rw [← hr.1]
      exact ⟨rfl, fun _ _ => rfl⟩
    · rw [h] at hr
      simp only [Result.ret.injEq] at hr
      rw [← hr.1]
      exact ⟨rfl, fun _ _ => rfl⟩
    · rw [h] at hr
      simp only [Result.ret.injEq] at hr
      rw [← hr.1]
      exact ⟨rfl, fun _ _ => rfl⟩
    · rw [h] at hr
      simp only [Result.ret.injEq] at hr
      rw [← hr.1]
      refine ⟨rfl, fun k hk => ?_⟩
      simp [Server.timerOf, hm, TimerMap.get_set_of_ne m x.ID k _ hk]

theorem clearSessionTimer_unregisters (s s1 : Server) (id : String)
    (h : (clearSessionTimer s id).server = some s1) :
    s1.applied = s.applied ∧ s1.timerOf id = none ∧
    ∀ k, s.timerOf k = none → s1.timerOf k = none := by
  unfold clearSessionTimer at h
  cases hm : s.sessionTimers with
  | none =>
    simp only [hm, Result.server, Option.some.injEq] at h
    rw [← h]
    exact ⟨rfl, by simp [Server.timerOf, hm], fun _ hk => hk⟩
  | some m =>
    cases hg : m.get id with
    | none =>
      simp only [hm, hg, Result.server, Option.some.injEq] at h
      rw [← h]
      exact ⟨rfl, by simp [Server.timerOf, hm, hg], fun _ hk => hk⟩
    | some t =>
      simp only [hm, hg, Result.server, Option.some.injEq] at h
      rw [← h]
      refine ⟨rfl, by simp [Server.timerOf, TimerMap.get_delete_self], ?_⟩
      intro k hk
      by_cases hkid : k = id
      · subst hkid
        simp [Server.timerOf, TimerMap.get_delete_self]
      · simp only [Server.timerOf, hm] at hk
        simp [Server.timerOf, TimerMap.get_delete_of_ne m id k hkid, hk]

theorem clearAllSessionTimers_unregisters (s s1 : Server)
    (h : (clearAllSessionTimers s).server = some s1) :
    s1.applied = s.applied ∧ ∀ k, s1.timerOf k = none := by
  unfold clearAllSessionTimers at h
  cases hm : s.sessionTimers with
  | none =>
    simp only [hm, Result.server, Option.some.injEq] at h
    rw [← h]
    exact ⟨rfl, by simp [Server.timerOf, hm]⟩
  | some m =>
    simp only [hm, Result.server, Option.some.injEq] at h
    rw [← h]
    have hmap : (m.foldl clearEntry s).sessionTimers = some [] := by
      rw [foldl_clearEntry_sessionTimers, hm, Option.map_some',
        foldl_delete_eq_nil m m (fun e he => List.mem_map_of_mem Prod.fst he)]
    exact ⟨(foldl_clearEntry_rest m s).2.2.2.1, by simp [Server.timerOf, hmap, TimerMap.get]⟩

theorem step_quiet (parseDuration : String → Except String Int) (s s1 : Server) (a : Action)
    (id : String) (hnone : s.timerOf id = none) (ha : a.armsFor id = false)
    (hstep : step parseDuration s a = some s1) :
    s1.timerOf id = none ∧
    ∃ new, s1.applied = s.applied ++ new ∧ ∀ r ∈ new, r.SessionID ≠ id := by
  cases a with
  | initializeSessionTimers => simp [Action.armsFor] at ha
  | resetSessionTimer id1 session =>
    have hsome : ∀ x : Session, x.ID ≠ id →
        (resetSessionTimer parseDuration s id1 (some x)).server = some s1 →
        s1.timerOf id = none ∧
        ∃ new, s1.applied = s.applied ++ new ∧ ∀ r ∈ new, r.SessionID ≠ id := by
      intro x hx hr
      cases hres : resetSessionTimer parseDuration s id1 (some x) with
      | panic msg => simp [hres, Result.server] at hr
      | ret s2 err =>
        simp only [hres, Result.server, Option.some.injEq] at hr
        subst hr
        obtain ⟨happ, hkeys⟩ := resetSessionTimer_quiet parseDuration s s2 id1 x err hres
        exact ⟨by rw [hkeys id (Ne.symm hx)]; exact hnone, [], by simp [happ], by simp⟩
    simp only [step] at hstep
    cases session with
    | some x =>
      have hx : x.ID ≠ id := by simpa [Action.armsFor] using ha
      exact hsome x hx hstep
    | none =>
      have hid : id1 ≠ id := by simpa [Action.armsFor] using ha
      rw [resetSessionTimer_nil_session] at hstep
      cases hg : s.state.SessionGet id1 with
      | error e =>
        simp only [hg, Result.server, Option.some.injEq] at hstep
        subst hstep
        exact ⟨hnone, [], by simp, by simp⟩
      | ok r =>
        cases r with
        | none =>
          simp only [hg, Result.server, Option.some.injEq] at hstep
          subst hstep
          exact ⟨hnone, [], by simp, by simp⟩
        | some x =>
          simp only [hg] at hstep
          have hx : x.ID ≠ id := by
            rw [StateStore.SessionGet_ID s.state id1 x hg]
            exact hid
          exact hsome x hx hstep
  | clearSessionTimer id1 =>
    simp only [step] at hstep
    obtain ⟨happ, -, hkeep⟩ := clearSessionTimer_unregisters s s1 id1 hstep
    exact ⟨hkeep id hnone, [], by simp [happ], by simp⟩
  | clearAllSessionTimers =>
    simp only [step] at hstep
    obtain ⟨happ, hall⟩ := clearAllSessionTimers_unregisters s s1 hstep
    exact ⟨hall id, [], by simp [happ], by simp⟩
  | expire t applyErr =>
    simp only [step] at hstep
    cases hf : fireTimer s t applyErr with
    | none => simp [hf] at hstep
    | some r =>
      simp only [hf, Option.bind_some] at hstep
      obtain ⟨x, u, -, hreg, happ⟩ := fireTimer_applied s s1 t applyErr r hf hstep
      have hmap := fireTimer_sessionTimers s t applyErr r s1 hf hstep
      refine ⟨by simp only [Server.timerOf, hmap]; exact hnone, _, happ, ?_⟩
      intro r1 hr1
      simp only [List.mem_singleton] at hr1
      subst hr1
      intro hx
      simp only at hx
      rw [hx, hnone] at hreg
      exact absurd hreg (by simp)
  | sleep dt =>
    simp only [step, sleep, Option.some.injEq] at hstep
    subst hstep
    exact ⟨hnone, [], by simp, by simp⟩

theorem run_quiet (parseDuration : String → Except String Int) :
    ∀ (acts : List Action) (s s1 : Server) (id : String), s.timerOf id = none →
      (∀ a ∈ acts, a.armsFor id = false) → run parseDuration s acts = some s1 →
      s1.timerOf id = none ∧
      ∃ new, s1.applied = s.applied ++ new ∧ ∀ r ∈ new, r.SessionID ≠ id := by
  intro acts
  induction acts with
  | nil =>
    intro s s1 id hnone _ hrun
    simp only [run, Option.some.injEq] at hrun
    subst hrun
    exact ⟨hnone, [], by simp, by simp⟩
  | cons a rest ih =>
    intro s s1 id hnone hq hrun
    simp only [run] at hrun
    cases hs : step parseDuration s a with
    | none => simp [hs] at hrun
    | some s2 =>
      simp only [hs, Option.bind_some] at hrun
      obtain ⟨hnone2, new2, happ2, hnew2⟩ :=
        step_quiet parseDuration s s2 a id hnone (hq a (List.mem_cons_self _ _)) hs
      obtain ⟨hnone1, new1, happ1, hnew1⟩ :=
        ih s2 s1 id hnone2 (fun b hb => hq b (List.mem_cons_of_mem _ hb)) hrun
      refine ⟨hnone1, new2 ++ new1, by rw [happ1, happ2, List.append_assoc], ?_⟩
      intro r hr
      rcases List.mem_append.1 hr with h | h
      · exact hnew2 r h
      · exact hnew1 r h

/-- C12: after `clearSessionTimer(id)` or `clearAllSessionTimers()` has
returned, in any state and through any later operations and runtime events
other than a `resetSessionTimer` for that session (or
`initializeSessionTimers`), the registry has no entry for `id`, every request
submitted since the clear is for another session, and no expiry step of a
timer created for `id` is possible: such a timer cannot fire, or its callback
panics on the missing entry before it submits anything. -/
theorem no_expiry_for_cleared_id (parseDuration : String → Except String Int)
    (s s1 s2 : Server) (id : String) (acts : List Action)
    (hclear : (clearSessionTimer s id).server = some s1 ∨
      (clearAllSessionTimers s).server = some s1)
    (hquiet : ∀ a ∈ acts, a.armsFor id = false)
    (hrun : run parseDuration s1 acts = some s2) :
    s1.applied = s.applied ∧
    s2.timerOf id = none ∧
    (∃ new, s2.applied = s1.applied ++ new ∧ ∀ r ∈ new, r.SessionID ≠ id) ∧
    (∀ t x applyErr, s2.timers[t]? = some x → x.sessionID = id →
      step parseDuration s2 (.expire t applyErr) = none ∧
      (fireTimer s2 t applyErr = none ∨ ∃ msg, fireTimer s2 t applyErr = some (.panic msg))) := by
  have h1 : s1.applied = s.applied ∧ s1.timerOf id = none := by
    rcases hclear with h | h
    · exact ⟨(clearSessionTimer_unregisters s s1 id h).1, (clearSessionTimer_unregisters s s1 id h).2.1⟩
    · exact ⟨(clearAllSessionTimers_unregisters s s1 h).1, (clearAllSessionTimers_unregisters s s1 h).2 id⟩
  obtain ⟨hnone, hnew⟩ := run_quiet parseDuration acts s1 s2 id h1.2 hquiet hrun
  refine ⟨h1.1, hnone, hnew, ?_⟩
  intro t x applyErr hx hid
  have hreg : s2.timerOf x.sessionID = none := by rw [hid]; exact hnone
  rcases fireTimer_unregistered s2 t x applyErr hx hreg with h | h
  · exact ⟨by simp [step, h], Or.inl h⟩
  · exact ⟨by simp [step, h, Result.server], Or.inr ⟨_, h⟩⟩

/-- Witness for C12: on the server that holds timer 1 for `a` while timer 0,
also created for `a`, is no longer referenced, `clearSessionTimer("a")`
returns and 60 seconds pass. -/
theorem no_expiry_for_cleared_id_witness :
    (clearSessionTimer orphanServer "a").server =
      some { orphanServer with sessionTimers := some [],
                               timers := [⟨"a", 60000000000, 0, true⟩, ⟨"a", 60000000000, 0, false⟩] } ∧
    run parseDurationTable
        { orphanServer with sessionTimers := some [],
                            timers := [⟨"a", 60000000000, 0, true⟩, ⟨"a", 60000000000, 0, false⟩] }
        [.sleep 60000000000] =
      some { orphanServer with sessionTimers := some [], now := 60000000000,
                               timers := [⟨"a", 60000000000, 0, true⟩, ⟨"a", 60000000000, 0, false⟩] } ∧
    step parseDurationTable
        { orphanServer with sessionTimers := some [], now := 60000000000,
                            timers := [⟨"a", 60000000000, 0, true⟩, ⟨"a", 60000000000, 0, false⟩] }
        (.expire 0 none) = none :=
  ⟨by decide, by decide,
    ((no_expiry_for_cleared_id parseDurationTable orphanServer
      { orphanServer with sessionTimers := some [],
                          timers := [⟨"a", 60000000000, 0, true⟩, ⟨"a", 60000000000, 0, false⟩] }
      { orphanServer with sessionTimers := some [], now := 60000000000,
                          timers := [⟨"a", 60000000000, 0, true⟩, ⟨"a", 60000000000, 0, false⟩] }
      "a" [.sleep 60000000000] (Or.inl (by decide)) (by decide) (by decide)).2.2.2
      0 ⟨"a", 60000000000, 0, true⟩ none rfl rfl).1⟩

/-! ## Expiry of a timer the registry no longer holds -/

/-- C9, the code at the failing input: `initializeSessionTimers` runs at T=0
and again at T=1s on a store holding session `a`, so that timer 0 (due at
T=60s) is no longer in the registry, which holds timer 1 (due at T=61s). When
timer 0 fires at T=60s its callback stops timer 1, the timer the registry
holds for `a`, and submits the destroy. If `clearSessionTimer("a")` has
removed the entry before, the callback of timer 0 panics on the nil entry and
submits nothing. -/
theorem expiry_of_replaced_timer_stops_registered_timer :
    (run parseDurationTable freshServer
        [.initializeSessionTimers, .sleep 1000000000, .initializeSessionTimers,
          .sleep 59000000000]).map
      (fun s => (s.timerOf "a", s.timers,
        (fireTimer s 0 none).map
          (fun r => r.server.map (fun s1 => (s1.timerOf "a", s1.timers, s1.applied))))) =
    some (some 1,
      [⟨"a", 60000000000, 0, true⟩, ⟨"a", 60000000000, 1000000000, true⟩],
      some (some (some 1,
        [⟨"a", 60000000000, 0, false⟩, ⟨"a", 60000000000, 1000000000, false⟩],
        [⟨"dc1", .SessionDestroy, "a"⟩]))) ∧
    (run parseDurationTable freshServer
        [.initializeSessionTimers, .initializeSessionTimers, .clearSessionTimer "a",
          .sleep 60000000000]).map
      (fun s => (s.timerOf "a", liveTimers s "a", s.applied, fireTimer s 0 none)) =
    some (none, [⟨"a", 60000000000, 0, true⟩], [],
      some (.panic "invalid memory address or nil pointer dereference")) :=
  ⟨by rfl, by decide⟩

end Consul
